import Mathlib

/-!
Shallow embedding of the synchronization core of the chatty-boxy repository.

The embedded code:
* `src/src/sync/change-detector.js` — class `ChangeDetector`
  (`detectChanges`, `hasPageChanged`, `detectDeletedPages`,
  `detectDeletedPagesInSpace`, `fileExists`, `findMissingFiles`,
  `findOrphanedFiles`, `cleanup`);
* the Confluence client in the same source bundle — `ConfluenceClient.getAllPages`;
* the page storage module (`PageStorage`: `sanitizeFilename`,
  `generateFilename`, `getPageFilePath`, `savePage`, `savePageWithMetadata`).

The record store (`src/utils/database.js`) is not part of the sources; its
contract is modelled from the spec (§6 Record Store).  JavaScript strings are
modelled by `String`/`List Char`, JavaScript numbers used as version counters
by `Nat`, nullable fields by `Option`, and the mutable world (filesystem,
database) by explicit state passing.  Fallible collaborator calls
(`db.deletePage`, `fs.unlinkSync`, `fs.writeFileSync`, `db.upsertPage`) are
modelled with explicit failure oracles: association lists from key to error
message, mirroring how the repository's own test-suite mocks these calls.
-/

/-- `page.version` — the remote item's version object (`version.number`). -/
structure VersionInfo where
  number : Nat
deriving DecidableEq, Repr

/-- `page.space` — the remote item's space object (`space.key`). -/
structure SpaceInfo where
  key : String
deriving DecidableEq, Repr

/-- A page as reported by the Confluence API (the fields the sync core
reads: `id`, `title`, `version.number`, `space.key`, `_links.webui`). -/
structure Page where
  id : String
  title : String
  version : VersionInfo
  space : SpaceInfo
  linksWebui : Option String := none
deriving DecidableEq, Repr

/-- A row of the synced-pages table, as returned by the record store
(snake-case column names, as read by `change-detector.js`:
`page_id`, `space_key`, `title`, `version`, `file_path`).  `file_path` is
nullable; `none` models SQL NULL / JS `undefined`. -/
structure SyncedRecord where
  page_id : String
  space_key : String
  title : String
  version : Nat
  last_synced : String := ""
  file_path : Option String := none
  file_search_store_name : Option String := none
  url : Option String := none
deriving DecidableEq, Repr

namespace Db

/-- Modelled from the spec: the Record Store's state — `src/utils/database.js`
is not among the sources; §6 specifies it as a durable key-value mapping with
at most one `SyncedRecord` per id.  A database is the list of its rows. -/
abbrev Store := List SyncedRecord

/-- Modelled from the spec: `get(id) → SyncedRecord | null`
(`db.getPage(id)` in the callers): the row keyed by `id`, if any. -/
def getPage (db : Store) (id : String) : Option SyncedRecord :=
  List.find? (fun r => r.page_id = id) db

/-- Modelled from the spec: `getByCollection(collectionKey) → [SyncedRecord]`
(`db.getPagesBySpace(spaceKey)` in the callers): all rows of one space. -/
def getPagesBySpace (db : Store) (spaceKey : String) : List SyncedRecord :=
  List.filter (fun r => r.space_key = spaceKey) db

/-- Modelled from the spec: `getAll() → [SyncedRecord]`
(`db.getAllPages()` in the callers). -/
def getAllPages (db : Store) : List SyncedRecord := db

/-- Modelled from the spec: `delete(id)` (`db.deletePage(id)` in the
callers): removes the row keyed by `id`. -/
def deletePage (db : Store) (id : String) : Store :=
  List.filter (fun r => ¬ r.page_id = id) db

/-- Modelled from the spec: `upsert(record)` (`db.upsertPage` in the
callers): replace the row keyed by `record.page_id`, or insert it. -/
def upsertPage (db : Store) (record : SyncedRecord) : Store :=
  deletePage db record.page_id ++ [record]

end Db

namespace Detector

/-- `ChangeDetector.hasPageChanged(confluencePage, syncedPage)`:
version strictly greater, else title mismatch, else unchanged. -/
def hasPageChanged (confluencePage : Page) (syncedPage : SyncedRecord) : Bool :=
  if confluencePage.version.number > syncedPage.version then
    true
  else if confluencePage.title ≠ syncedPage.title then
    true
  else
    false

/-- The `stats` object accumulated by `ChangeDetector.detectChanges`. -/
structure DetectStats where
  total : Nat
  new : Nat
  updated : Nat
  unchanged : Nat
deriving DecidableEq, Repr

/-- The loop body of `ChangeDetector.detectChanges`, written as structural
recursion: the JS loop scans `confluencePages` left to right and pushes
NEW/UPDATED pages onto `changedPages` in scan order, which is exactly the
order produced by consing each emitted head onto the recursive result. -/
def detectChangesLoop (db : Db.Store) : List Page → List Page × DetectStats
  | [] => ([], ⟨0, 0, 0, 0⟩)
  | page :: rest =>
    let r := detectChangesLoop db rest
    match Db.getPage db page.id with
    | none =>
      -- Page is new - never synced before
      (page :: r.1, { r.2 with new := r.2.new + 1 })
    | some syncedPage =>
      if hasPageChanged page syncedPage then
        -- Page has been updated
        (page :: r.1, { r.2 with updated := r.2.updated + 1 })
      else
        -- Page is unchanged
        (r.1, { r.2 with unchanged := r.2.unchanged + 1 })

/-- `ChangeDetector.detectChanges(confluencePages)`: the changed pages
together with the stats it logs (`stats.total` is set up front to the input
length).  The method reads the store only through `db.getPage`; the embedding
takes the store as a value and returns no store, so classification writes
nothing. -/
def detectChanges (db : Db.Store) (confluencePages : List Page) :
    List Page × DetectStats :=
  let r := detectChangesLoop db confluencePages
  (r.1, { r.2 with total := confluencePages.length })

/-- `[...new Set(confluencePages.map(p => p.space.key))]`: JS `Set`
iteration order is insertion order, i.e. first occurrences are kept. -/
def uniqueSpaceKeys (keys : List String) : List String :=
  List.foldl (fun acc k => if acc.contains k then acc else acc ++ [k]) [] keys

/-- `ChangeDetector.detectDeletedPages(confluencePages)`: restrict the store
to the spaces present in the snapshot, then report every such record whose
id is absent from the snapshot. -/
def detectDeletedPages (db : Db.Store) (confluencePages : List Page) :
    List SyncedRecord :=
  let spaceKeys := uniqueSpaceKeys (confluencePages.map (fun p => p.space.key))
  let syncedPages := spaceKeys.flatMap (fun spaceKey => Db.getPagesBySpace db spaceKey)
  let confluencePageIds := confluencePages.map (fun p => p.id)
  syncedPages.filter (fun syncedPage => ¬ confluencePageIds.contains syncedPage.page_id)

/-- `ChangeDetector.detectDeletedPagesInSpace(spaceKey, confluencePages)`. -/
def detectDeletedPagesInSpace (db : Db.Store) (spaceKey : String)
    (confluencePages : List Page) : List SyncedRecord :=
  let syncedPages := Db.getPagesBySpace db spaceKey
  let confluencePageIds := confluencePages.map (fun p => p.id)
  syncedPages.filter (fun syncedPage => ¬ confluencePageIds.contains syncedPage.page_id)

/-- `ChangeDetector.fileExists(syncedPage)`: false when `file_path` is
falsy (NULL/undefined or the empty string), otherwise
`fs.existsSync(file_path)`.  The filesystem is modelled by the list of
existing file paths. -/
def fileExists (fsFiles : List String) (syncedPage : SyncedRecord) : Bool :=
  match syncedPage.file_path with
  | none => false
  | some p => if p = "" then false else fsFiles.contains p

/-- `ChangeDetector.findMissingFiles()`: every database record whose file
does not exist. -/
def findMissingFiles (fsFiles : List String) (db : Db.Store) : List SyncedRecord :=
  (Db.getAllPages db).filter (fun page => ¬ fileExists fsFiles page)

end Detector

namespace Client

/-- The pagination loop of `ConfluenceClient.getAllPages(spaceKey, limit)`.
`batches` is the sequence of `response.data.results` arrays the server
returns to the successive requests; the loop keeps requesting while the
previous batch was full (`results.length === limit`) and fewer than
`config.sync.maxPagesPerSync` pages are accumulated.  Exhausting `batches`
models the server having no further results (it would answer with an empty
batch, which for a positive `limit` ends the loop with the same value). -/
def getAllPagesLoop (limit maxPagesPerSync : Nat) :
    List (List Page) → List Page → List Page
  | [], pages => pages
  | results :: rest, pages =>
    if pages.length < maxPagesPerSync then
      let pages2 := pages ++ results
      if results.length = limit then getAllPagesLoop limit maxPagesPerSync rest pages2
      else pages2
    else pages

/-- `ConfluenceClient.getAllPages`: run the pagination loop from an empty
accumulator. -/
def getAllPages (limit maxPagesPerSync : Nat) (batches : List (List Page)) :
    List Page :=
  getAllPagesLoop limit maxPagesPerSync batches []

end Client

/-- Failure oracle for one fallible collaborator call: maps an argument to
the error message the call throws with, `none` meaning the call succeeds.
Mirrors how the repository's tests mock `db`/`fs` methods per argument. -/
def lookupFail (oracle : List (String × String)) (k : String) : Option String :=
  (List.find? (fun kv => kv.1 = k) oracle).map (fun kv => kv.2)

namespace Storage

/-- JS regex `\s` restricted to the ASCII whitespace characters
(space, tab, line feed, vertical tab, form feed, carriage return). -/
def isJsSpace (c : Char) : Bool :=
  c = ' ' || c = '\t' || c = '\n' || c = Char.ofNat 11 || c = Char.ofNat 12 || c = '\r'

/-- `.replace(/\s+/g, '-')`: each maximal run of whitespace becomes one
hyphen.  The flag records whether the previous character was whitespace. -/
def collapseSpaces : Bool → List Char → List Char
  | _, [] => []
  | prevSpace, c :: cs =>
    if isJsSpace c then
      if prevSpace then collapseSpaces true cs
      else '-' :: collapseSpaces true cs
    else c :: collapseSpaces false cs

/-- The character class kept by `.replace(/[^a-zA-Z0-9-_]/g, '')`. -/
def isFileChar (c : Char) : Bool :=
  c.isAlpha || c.isDigit || c = '-' || c = '_'

/-- The character class of `sanitizeFilename`'s output claimed by the spec:
lowercase letters, digits, hyphen, underscore. -/
def isSafeChar (c : Char) : Bool :=
  c.isLower || c.isDigit || c = '-' || c = '_'

/-- No two consecutive hyphens. -/
def NoAdjHyphens (l : List Char) : Prop :=
  List.Chain' (fun a b => ¬ (a = '-' ∧ b = '-')) l

/-- The hyphen-run replacement `.replace(hyphen+, '-')` (global): each
maximal run of hyphens becomes one hyphen. -/
def collapseHyphens : Bool → List Char → List Char
  | _, [] => []
  | prevHyphen, c :: cs =>
    if c = '-' then
      if prevHyphen then collapseHyphens true cs
      else '-' :: collapseHyphens true cs
    else c :: collapseHyphens false cs

/-- `.replace(/^-|-$/g, '')`: the global alternation deletes at most one
leading and at most one trailing hyphen. -/
def trimEdgeHyphens (l : List Char) : List Char :=
  let l1 := match l with
    | [] => []
    | c :: rest => if c = '-' then rest else c :: rest
  if l1.getLast? = some '-' then l1.dropLast else l1

/-- `PageStorage.sanitizeFilename(filename)` on the character list:
collapse whitespace to hyphens, drop disallowed characters, collapse hyphen
runs, trim edge hyphens, lowercase, truncate to 100 characters. -/
def sanitizeFilenameChars (filename : List Char) : List Char :=
  ((trimEdgeHyphens
      (collapseHyphens false
        (List.filter isFileChar
          (collapseSpaces false filename)))).map Char.toLower).take 100

/-- `PageStorage.sanitizeFilename(filename)`. -/
def sanitizeFilename (filename : String) : String :=
  String.mk (sanitizeFilenameChars filename.data)

/-- `PageStorage.generateFilename(page)`:
`` `${page.space.key.toLowerCase()}_${pageId}_${sanitizedTitle}` ``. -/
def generateFilename (page : Page) : String :=
  String.mk (page.space.key.data.map Char.toLower) ++ "_" ++ page.id ++ "_"
    ++ sanitizeFilename page.title

/-- `PageStorage.getPageFilePath(page)`: `path.join(contentDir, filename + ".md")`,
with `path.join` modelled as `/`-concatenation.  `contentDir` comes from
configuration and is passed explicitly. -/
def getPageFilePath (contentDir : String) (page : Page) : String :=
  contentDir ++ "/" ++ generateFilename page ++ ".md"

/-- Result object of `savePage` / `savePageWithMetadata`; fields the JS
object omits are `none`. -/
structure SaveResult where
  success : Bool
  filePath : Option String := none
  pageId : Option String := none
  error : Option String := none
deriving DecidableEq, Repr

/-- The world `PageStorage` mutates: the set of existing artifact files and
the record store, with failure oracles for `fs.writeFileSync` (keyed by
path) and `db.upsertPage` (keyed by page id). -/
structure StorageWorld where
  files : List String := []
  db : Db.Store := []
  writeFail : List (String × String) := []
  upsertFail : List (String × String) := []
deriving DecidableEq, Repr

/-- `PageStorage.savePage(page, markdown)`: write the markdown artifact,
catching a write failure into `{success:false, filePath:null, error}`. -/
def savePage (contentDir : String) (page : Page) (markdown : String)
    (w : StorageWorld) : SaveResult × StorageWorld :=
  let filePath := getPageFilePath contentDir page
  match lookupFail w.writeFail filePath with
  | some msg => ({ success := false, filePath := none, error := some msg }, w)
  | none =>
    ({ success := true, filePath := some filePath, error := none },
     { w with files := w.files ++ [filePath] })

/-- `PageStorage.savePageWithMetadata(page, markdown, fileSearchStoreName)`:
save the artifact, then upsert the record; `now` models
`new Date().toISOString()` and `baseUrl` models `config.confluence.baseUrl`. -/
def savePageWithMetadata (contentDir baseUrl now : String) (page : Page)
    (markdown : String) (fileSearchStoreName : Option String)
    (w : StorageWorld) : SaveResult × StorageWorld :=
  let r := savePage contentDir page markdown w
  let saveResult := r.1
  if ¬ saveResult.success then
    ({ success := false, error := saveResult.error }, r.2)
  else
    match lookupFail w.upsertFail page.id with
    | some msg =>
      ({ success := false, filePath := saveResult.filePath,
         error := some ("File saved but database update failed: " ++ msg) }, r.2)
    | none =>
      let record : SyncedRecord :=
        { page_id := page.id
          space_key := page.space.key
          title := page.title
          version := page.version.number
          last_synced := now
          file_path := saveResult.filePath
          file_search_store_name := fileSearchStoreName
          url := match page.linksWebui with
            | some webui => some (baseUrl ++ "/wiki" ++ webui)
            | none => none }
      ({ success := true, filePath := saveResult.filePath,
         pageId := some page.id, error := none },
       { r.2 with db := Db.upsertPage r.2.db record })

end Storage

namespace Detector

/-- A node of the directory tree under the content directory, walked by
`findOrphanedFiles` via `fs.readdirSync` / `fs.statSync`. -/
inductive FsEntry where
  | file (name : String)
  | dir (name : String) (entries : List FsEntry)

mutual

/-- One iteration of the `findMarkdownFiles` walk in
`ChangeDetector.findOrphanedFiles`: recurse into directories, collect
`.md` files whose full path is not tracked in the database. -/
def findMarkdownFilesEntry (syncedFilePaths : List String) (dirPath : String) :
    FsEntry → List String
  | .file name =>
    if name.endsWith ".md" ∧ ¬ syncedFilePaths.contains (dirPath ++ "/" ++ name) then
      [dirPath ++ "/" ++ name]
    else []
  | .dir name entries =>
    findMarkdownFilesList syncedFilePaths (dirPath ++ "/" ++ name) entries

/-- The walk over the entries of one directory, in `readdirSync` order. -/
def findMarkdownFilesList (syncedFilePaths : List String) (dirPath : String) :
    List FsEntry → List String
  | [] => []
  | e :: es =>
    findMarkdownFilesEntry syncedFilePaths dirPath e
      ++ findMarkdownFilesList syncedFilePaths dirPath es

end

/-- `ChangeDetector.findOrphanedFiles(contentDir)`: `none` for the content
tree models `fs.existsSync(contentDir)` false (early return).  The JS `Set`
of tracked paths holds raw `file_path` values; a NULL value never equals a
string path, so collecting the non-null paths is equivalent. -/
def findOrphanedFiles (db : Db.Store) (contentDir : String)
    (contentTree : Option (List FsEntry)) : List String :=
  match contentTree with
  | none => []
  | some entries =>
    let syncedFilePaths := (Db.getAllPages db).filterMap (fun p => p.file_path)
    findMarkdownFilesList syncedFilePaths contentDir entries

/-- One entry of `results.errors` in `ChangeDetector.cleanup`:
`{pageId, error}` from the deletion loop, `{file, error}` from the
orphaned-file loop. -/
inductive CleanupError where
  | pageError (pageId : String) (error : String)
  | fileError (file : String) (error : String)
deriving DecidableEq, Repr

/-- Distinguishes deletion-loop error entries (`{pageId, error}`) from
orphan-loop entries (`{file, error}`). -/
def isPageError : CleanupError → Bool
  | .pageError _ _ => true
  | .fileError _ _ => false

/-- The `results` object of `ChangeDetector.cleanup`. -/
structure CleanupResults where
  deletedPages : Nat
  deletedFiles : Nat
  orphanedFiles : Nat
  errors : List CleanupError
deriving DecidableEq, Repr

/-- The world `cleanup` mutates: the record store, the existing artifact
paths, the content-directory tree, and failure oracles for `db.deletePage`
(keyed by page id) and `fs.unlinkSync` (keyed by path). -/
structure CleanupWorld where
  db : Db.Store := []
  files : List String := []
  contentTree : Option (List FsEntry) := none
  dbDeleteFail : List (String × String) := []
  unlinkFail : List (String × String) := []

/-- `db.deletePage(pageId)` as a fallible call: throws the oracle's message
or removes the row. -/
def dbDeletePage (w : CleanupWorld) (pageId : String) :
    Except String CleanupWorld :=
  match lookupFail w.dbDeleteFail pageId with
  | some msg => .error msg
  | none => .ok { w with db := Db.deletePage w.db pageId }

/-- `fs.unlinkSync(filePath)` as a fallible call: throws the oracle's
message or removes the path. -/
def unlinkSync (w : CleanupWorld) (filePath : String) :
    Except String CleanupWorld :=
  match lookupFail w.unlinkFail filePath with
  | some msg => .error msg
  | none => .ok { w with files := w.files.filter (fun q => ¬ q = filePath) }

/-- One iteration of the deletion loop in `ChangeDetector.cleanup`: the
`try` block deletes the database row, counts it, then unlinks the file if
`page.file_path` is truthy and the file exists; the `catch` appends one
`{pageId, error}` entry and moves on. -/
def cleanupPageStep (acc : CleanupResults × CleanupWorld)
    (page : SyncedRecord) : CleanupResults × CleanupWorld :=
  let results := acc.1
  let w := acc.2
  match dbDeletePage w page.page_id with
  | .error msg =>
    ({ results with errors := results.errors ++ [.pageError page.page_id msg] }, w)
  | .ok w1 =>
    let results1 := { results with deletedPages := results.deletedPages + 1 }
    match page.file_path with
    | none => (results1, w1)
    | some fp =>
      if fp ≠ "" ∧ w1.files.contains fp then
        match unlinkSync w1 fp with
        | .error msg =>
          ({ results1 with
              errors := results1.errors ++ [.pageError page.page_id msg] }, w1)
        | .ok w2 =>
          ({ results1 with deletedFiles := results1.deletedFiles + 1 }, w2)
      else (results1, w1)

/-- One iteration of the orphaned-file loop in `ChangeDetector.cleanup`:
unlink the orphan, counting it, or append one `{file, error}` entry. -/
def cleanupOrphanStep (acc : CleanupResults × CleanupWorld)
    (filePath : String) : CleanupResults × CleanupWorld :=
  let results := acc.1
  let w := acc.2
  match unlinkSync w filePath with
  | .error msg =>
    ({ results with errors := results.errors ++ [.fileError filePath msg] }, w)
  | .ok w1 =>
    ({ results with orphanedFiles := results.orphanedFiles + 1 }, w1)

/-- `ChangeDetector.cleanup(deletedPages, contentDir)`: run the deletion
loop, then find and remove orphaned files. -/
def cleanup (deletedPages : List SyncedRecord) (contentDir : String)
    (w : CleanupWorld) : CleanupResults × CleanupWorld :=
  let r1 := deletedPages.foldl cleanupPageStep (⟨0, 0, 0, []⟩, w)
  let orphanedFiles := findOrphanedFiles r1.2.db contentDir r1.2.contentTree
  orphanedFiles.foldl cleanupOrphanStep r1

end Detector

namespace Detector

/-- The emit condition of the `detectChanges` loop: a page is pushed onto
`changedPages` exactly when no record exists (NEW) or `hasPageChanged`
holds (UPDATED). -/
def pageNeedsSync (db : Db.Store) (page : Page) : Bool :=
  match Db.getPage db page.id with
  | none => true
  | some syncedPage => hasPageChanged page syncedPage

theorem hasPageChanged_true_iff (p : Page) (r : SyncedRecord) :
    hasPageChanged p r = true ↔ r.version < p.version.number ∨ p.title ≠ r.title := by
  unfold hasPageChanged
  split_ifs with h1 h2 <;> simp_all [Nat.lt_iff_add_one_le]

theorem hasPageChanged_false_iff (p : Page) (r : SyncedRecord) :
    hasPageChanged p r = false ↔ p.version.number ≤ r.version ∧ p.title = r.title := by
  rw [← Bool.not_eq_true, hasPageChanged_true_iff]
  push_neg
  rfl

theorem detectChangesLoop_fst (db : Db.Store) (pages : List Page) :
    (detectChangesLoop db pages).1 = pages.filter (pageNeedsSync db) := by
  induction pages with
  | nil => rfl
  | cons page rest ih =>
    unfold detectChangesLoop
    cases h : Db.getPage db page.id with
    | none =>
      have hp : pageNeedsSync db page = true := by simp [pageNeedsSync, h]
      simp [h, List.filter_cons, hp, ih]
    | some syncedPage =>
      by_cases hc : hasPageChanged page syncedPage
      · have hp : pageNeedsSync db page = true := by simp [pageNeedsSync, h, hc]
        simp [h, hc, List.filter_cons, hp, ih]
      · have hp : pageNeedsSync db page = false := by simp [pageNeedsSync, h, hc]
        simp [h, hc, List.filter_cons, hp, ih]

theorem detectChanges_fst (db : Db.Store) (pages : List Page) :
    (detectChanges db pages).1 = pages.filter (pageNeedsSync db) := by
  unfold detectChanges
  exact detectChangesLoop_fst db pages

end Detector

theorem Detector.detectChanges_singleton (db : Db.Store) (page : Page) :
    Detector.detectChanges db [page] =
      match Db.getPage db page.id with
      | none => ([page], ⟨1, 1, 0, 0⟩)
      | some syncedPage =>
        if Detector.hasPageChanged page syncedPage then ([page], ⟨1, 0, 1, 0⟩)
        else ([], ⟨1, 0, 0, 1⟩) := by
  cases h : Db.getPage db page.id with
  | none => simp [Detector.detectChanges, Detector.detectChangesLoop, h]
  | some syncedPage =>
    by_cases hc : Detector.hasPageChanged page syncedPage <;>
      simp [Detector.detectChanges, Detector.detectChangesLoop, h, hc]

/-- C2 — Classification correctness of `ChangeDetector.detectChanges`: a
remote item with no stored record is NEW and emitted; with a record of
strictly smaller stored version it is UPDATED and emitted; with an equal
version but different title it is UPDATED and emitted; with equal version
and equal title it is UNCHANGED and not emitted. -/
theorem C2_classification_correctness (db : Db.Store) (page : Page) :
    (Db.getPage db page.id = none →
      Detector.detectChanges db [page] = ([page], ⟨1, 1, 0, 0⟩)) ∧
    (∀ record, Db.getPage db page.id = some record →
      record.version < page.version.number →
      Detector.detectChanges db [page] = ([page], ⟨1, 0, 1, 0⟩)) ∧
    (∀ record, Db.getPage db page.id = some record →
      page.version.number = record.version → page.title ≠ record.title →
      Detector.detectChanges db [page] = ([page], ⟨1, 0, 1, 0⟩)) ∧
    (∀ record, Db.getPage db page.id = some record →
      page.version.number = record.version → page.title = record.title →
      Detector.detectChanges db [page] = ([], ⟨1, 0, 0, 1⟩)) := by
  refine ⟨?_, ?_, ?_, ?_⟩
  · intro h
    simp [Detector.detectChanges_singleton, h]
  · intro record h hlt
    have hc : Detector.hasPageChanged page record = true :=
      (Detector.hasPageChanged_true_iff page record).mpr (Or.inl hlt)
    simp [Detector.detectChanges_singleton, h, hc]
  · intro record h _hv ht
    have hc : Detector.hasPageChanged page record = true :=
      (Detector.hasPageChanged_true_iff page record).mpr (Or.inr ht)
    simp [Detector.detectChanges_singleton, h, hc]
  · intro record h hv ht
    have hc : Detector.hasPageChanged page record = false :=
      (Detector.hasPageChanged_false_iff page record).mpr ⟨Nat.le_of_eq hv, ht⟩
    simp [Detector.detectChanges_singleton, h, hc]

/-- Witness for C2: all four classification branches evaluated at concrete
inputs. -/
theorem C2_classification_correctness_witness :
    (Detector.detectChanges ([] : Db.Store) [⟨"9", "T", ⟨1⟩, ⟨"DEV"⟩, none⟩]
      = ([⟨"9", "T", ⟨1⟩, ⟨"DEV"⟩, none⟩], ⟨1, 1, 0, 0⟩)) ∧
    (Detector.detectChanges [⟨"1", "DEV", "T", 3, "", none, none, none⟩]
        [⟨"1", "T", ⟨5⟩, ⟨"DEV"⟩, none⟩]
      = ([⟨"1", "T", ⟨5⟩, ⟨"DEV"⟩, none⟩], ⟨1, 0, 1, 0⟩)) ∧
    (Detector.detectChanges [⟨"1", "DEV", "Old", 3, "", none, none, none⟩]
        [⟨"1", "New", ⟨3⟩, ⟨"DEV"⟩, none⟩]
      = ([⟨"1", "New", ⟨3⟩, ⟨"DEV"⟩, none⟩], ⟨1, 0, 1, 0⟩)) ∧
    (Detector.detectChanges [⟨"1", "DEV", "T", 3, "", none, none, none⟩]
        [⟨"1", "T", ⟨3⟩, ⟨"DEV"⟩, none⟩]
      = ([], ⟨1, 0, 0, 1⟩)) :=
  ⟨(C2_classification_correctness [] ⟨"9", "T", ⟨1⟩, ⟨"DEV"⟩, none⟩).1 (by decide),
   (C2_classification_correctness _ _).2.1 ⟨"1", "DEV", "T", 3, "", none, none, none⟩
     (by decide) (by decide),
   (C2_classification_correctness _ _).2.2.1 ⟨"1", "DEV", "Old", 3, "", none, none, none⟩
     (by decide) (by decide) (by decide),
   (C2_classification_correctness _ _).2.2.2 ⟨"1", "DEV", "T", 3, "", none, none, none⟩
     (by decide) (by decide) (by decide)⟩

/-- C4 counterexample — the claim says a remote item whose version is
strictly below the stored version is always UNCHANGED and never emitted,
"regardless of whether the titles match": with stored version 2, title "A"
and remote version 1, title "B", the code's title comparison fires and the
item is classified UPDATED and emitted. -/
theorem C4_version_decrease_counterexample :
    Detector.detectChanges [⟨"1", "DEV", "A", 2, "", none, none, none⟩]
        [⟨"1", "B", ⟨1⟩, ⟨"DEV"⟩, none⟩]
      = ([⟨"1", "B", ⟨1⟩, ⟨"DEV"⟩, none⟩], ⟨1, 0, 1, 0⟩) := by
  decide

/-- C4 (amended) — Version decrease is not by itself a sync trigger: a
remote item whose version is strictly below the stored version is
classified UNCHANGED and not emitted when its title equals the stored
title; when the title differs, the title comparison applies regardless of
version order and the item is classified UPDATED and emitted. -/
theorem C4_version_decrease_amended (db : Db.Store) (page : Page)
    (record : SyncedRecord) (hrec : Db.getPage db page.id = some record)
    (hlt : page.version.number < record.version) :
    (page.title = record.title →
      Detector.detectChanges db [page] = ([], ⟨1, 0, 0, 1⟩)) ∧
    (page.title ≠ record.title →
      Detector.detectChanges db [page] = ([page], ⟨1, 0, 1, 0⟩)) := by
  constructor
  · intro ht
    have hc : Detector.hasPageChanged page record = false :=
      (Detector.hasPageChanged_false_iff page record).mpr ⟨Nat.le_of_lt hlt, ht⟩
    simp [Detector.detectChanges_singleton, hrec, hc]
  · intro ht
    have hc : Detector.hasPageChanged page record = true :=
      (Detector.hasPageChanged_true_iff page record).mpr (Or.inr ht)
    simp [Detector.detectChanges_singleton, hrec, hc]

/-- Witness for the amended C4: both branches at concrete inputs with
stored version 2 and remote version 1. -/
theorem C4_version_decrease_amended_witness :
    (Detector.detectChanges [⟨"1", "DEV", "A", 2, "", none, none, none⟩]
        [⟨"1", "A", ⟨1⟩, ⟨"DEV"⟩, none⟩] = ([], ⟨1, 0, 0, 1⟩)) ∧
    (Detector.detectChanges [⟨"1", "DEV", "A", 2, "", none, none, none⟩]
        [⟨"1", "B", ⟨1⟩, ⟨"DEV"⟩, none⟩]
      = ([⟨"1", "B", ⟨1⟩, ⟨"DEV"⟩, none⟩], ⟨1, 0, 1, 0⟩)) :=
  ⟨(C4_version_decrease_amended _ _ ⟨"1", "DEV", "A", 2, "", none, none, none⟩
      (by decide) (by decide)).1 (by decide),
   (C4_version_decrease_amended _ _ ⟨"1", "DEV", "A", 2, "", none, none, none⟩
      (by decide) (by decide)).2 (by decide)⟩

/-- C6 — Order preservation: the changed list of `detectChanges` is a
subsequence of the input, equal to the input filtered by the NEW/UPDATED
emit condition (so it holds exactly the NEW/UPDATED items in input order),
and duplicate-free whenever the input is.  The embedding of `detectChanges`
takes the store as a read-only value and returns none: the scan performs no
store writes. -/
theorem C6_order_preservation (db : Db.Store) (pages : List Page) :
    List.Sublist (Detector.detectChanges db pages).1 pages ∧
    (Detector.detectChanges db pages).1
      = pages.filter (Detector.pageNeedsSync db) ∧
    (pages.Nodup → (Detector.detectChanges db pages).1.Nodup) := by
  refine ⟨?_, Detector.detectChanges_fst db pages, ?_⟩
  · rw [Detector.detectChanges_fst]
    exact List.filter_sublist pages
  · intro h
    rw [Detector.detectChanges_fst]
    exact h.filter _

/-- Witness for C6: a concrete three-page snapshot with a duplicate-free
input yields a duplicate-free changed list. -/
theorem C6_order_preservation_witness :
    ([⟨"1", "New", ⟨1⟩, ⟨"DEV"⟩, none⟩, ⟨"2", "Up", ⟨5⟩, ⟨"DEV"⟩, none⟩] :
        List Page).Nodup ∧
    (Detector.detectChanges [⟨"2", "DEV", "Up", 3, "", none, none, none⟩]
        [⟨"1", "New", ⟨1⟩, ⟨"DEV"⟩, none⟩, ⟨"2", "Up", ⟨5⟩, ⟨"DEV"⟩, none⟩]).1.Nodup :=
  ⟨by decide,
   (C6_order_preservation [⟨"2", "DEV", "Up", 3, "", none, none, none⟩]
      [⟨"1", "New", ⟨1⟩, ⟨"DEV"⟩, none⟩, ⟨"2", "Up", ⟨5⟩, ⟨"DEV"⟩, none⟩]).2.2
     (by decide)⟩

theorem Detector.mem_uniqueSpaceKeys_aux (keys : List String) (k : String) :
    ∀ acc, k ∈ List.foldl
        (fun acc k => if acc.contains k then acc else acc ++ [k]) acc keys
      ↔ (k ∈ acc ∨ k ∈ keys) := by
  induction keys with
  | nil => simp
  | cons k0 rest ih =>
    intro acc
    rw [List.foldl_cons]
    by_cases h : acc.contains k0
    · have hk0 : k0 ∈ acc := by simpa using h
      rw [if_pos h, ih]
      constructor
      · rintro (h1 | h1)
        · exact Or.inl h1
        · exact Or.inr (List.mem_cons_of_mem k0 h1)
      · rintro (h1 | h1)
        · exact Or.inl h1
        · rcases List.mem_cons.mp h1 with h2 | h2
          · exact Or.inl (h2 ▸ hk0)
          · exact Or.inr h2
    · rw [if_neg h, ih]
      simp [List.mem_append, List.mem_cons]
      tauto

theorem Detector.mem_uniqueSpaceKeys (keys : List String) (k : String) :
    k ∈ Detector.uniqueSpaceKeys keys ↔ k ∈ keys := by
  unfold Detector.uniqueSpaceKeys
  rw [Detector.mem_uniqueSpaceKeys_aux]
  simp

theorem Detector.mem_detectDeletedPages (db : Db.Store) (pages : List Page)
    (r : SyncedRecord) :
    r ∈ Detector.detectDeletedPages db pages ↔
      r ∈ db ∧ r.space_key ∈ pages.map (fun p => p.space.key) ∧
        r.page_id ∉ pages.map (fun p => p.id) := by
  unfold Detector.detectDeletedPages
  rw [List.mem_filter]
  simp only [List.mem_flatMap, Detector.mem_uniqueSpaceKeys, Db.getPagesBySpace,
    List.mem_filter, decide_eq_true_eq, decide_not, Bool.not_eq_false,
    List.elem_iff, Bool.not_eq_true]
  constructor
  · rintro ⟨⟨k, hk, hr, hks⟩, hid⟩
    refine ⟨hr, ?_, by simpa using hid⟩
    exact hks ▸ hk
  · rintro ⟨hr, hks, hid⟩
    exact ⟨⟨r.space_key, hks, hr, rfl⟩, by simpa using hid⟩

/-- C3 — Scoped deletion: `detectDeletedPages` reports a stored record as
deleted exactly when its space key occurs among the space keys of the
snapshot's pages and its page id does not occur among the snapshot's page
ids; in particular a record whose space is not represented in the snapshot
is never reported. -/
theorem C3_scoped_deletion (db : Db.Store) (pages : List Page)
    (r : SyncedRecord) :
    (r ∈ Detector.detectDeletedPages db pages ↔
      r ∈ db ∧ r.space_key ∈ pages.map (fun p => p.space.key) ∧
        r.page_id ∉ pages.map (fun p => p.id)) ∧
    (r.space_key ∉ pages.map (fun p => p.space.key) →
      r ∉ Detector.detectDeletedPages db pages) := by
  refine ⟨Detector.mem_detectDeletedPages db pages r, ?_⟩
  intro hk hmem
  exact hk ((Detector.mem_detectDeletedPages db pages r).mp hmem).2.1

/-- Witness for C3: with a snapshot containing only space A, a stale space-A
record is reported deleted and a space-B record is not. -/
theorem C3_scoped_deletion_witness :
    (⟨"2", "A", "Stale", 1, "", none, none, none⟩ ∈
        Detector.detectDeletedPages
          [⟨"1", "A", "Live", 1, "", none, none, none⟩,
           ⟨"2", "A", "Stale", 1, "", none, none, none⟩,
           ⟨"3", "B", "Other", 1, "", none, none, none⟩]
          [⟨"1", "Live", ⟨1⟩, ⟨"A"⟩, none⟩]) ∧
    (⟨"3", "B", "Other", 1, "", none, none, none⟩ ∉
        Detector.detectDeletedPages
          [⟨"1", "A", "Live", 1, "", none, none, none⟩,
           ⟨"2", "A", "Stale", 1, "", none, none, none⟩,
           ⟨"3", "B", "Other", 1, "", none, none, none⟩]
          [⟨"1", "Live", ⟨1⟩, ⟨"A"⟩, none⟩]) :=
  ⟨(C3_scoped_deletion _ _ _).1.mpr ⟨by decide, by decide, by decide⟩,
   (C3_scoped_deletion _ _ ⟨"3", "B", "Other", 1, "", none, none, none⟩).2
     (by decide)⟩

theorem Detector.detectChangesLoop_all_unchanged (db : Db.Store)
    (pages : List Page)
    (h : ∀ p ∈ pages, ∃ r, Db.getPage db p.id = some r ∧
        Detector.hasPageChanged p r = false) :
    Detector.detectChangesLoop db pages = ([], ⟨0, 0, 0, pages.length⟩) := by
  induction pages with
  | nil => rfl
  | cons page rest ih =>
    obtain ⟨r, hr, hc⟩ := h page (List.mem_cons_self page rest)
    have hrest := ih (fun p hp => h p (List.mem_cons_of_mem page hp))
    unfold Detector.detectChangesLoop
    simp [hr, hc, hrest]

/-- C1 counterexample — the claim's hypothesis (every snapshot item has a
record with the same id, version and title) does not force deletion
detection to be empty: with snapshot `[{id:"1", v:1, title:"A", space DEV}]`
and store `[{id:"1",...}, {id:"2", space DEV}]`, the second classification
pass emits nothing, yet the stale record "2" is reported deleted. -/
theorem C1_idempotence_counterexample :
    (Db.getPage
        [⟨"1", "DEV", "A", 1, "", none, none, none⟩,
         ⟨"2", "DEV", "C", 1, "", none, none, none⟩] "1"
      = some ⟨"1", "DEV", "A", 1, "", none, none, none⟩) ∧
    (Detector.detectChanges
        [⟨"1", "DEV", "A", 1, "", none, none, none⟩,
         ⟨"2", "DEV", "C", 1, "", none, none, none⟩]
        [⟨"1", "A", ⟨1⟩, ⟨"DEV"⟩, none⟩] = ([], ⟨1, 0, 0, 1⟩)) ∧
    (Detector.detectDeletedPages
        [⟨"1", "DEV", "A", 1, "", none, none, none⟩,
         ⟨"2", "DEV", "C", 1, "", none, none, none⟩]
        [⟨"1", "A", ⟨1⟩, ⟨"DEV"⟩, none⟩]
      = [⟨"2", "DEV", "C", 1, "", none, none, none⟩]) := by
  refine ⟨by decide, by decide, ?_⟩
  decide

/-- C1 (amended) — Idempotence round trip: if every item of the remote
snapshot has been fully synced — the store holds, for each remote item, a
record with the same id, versionNumber and title — and the deletions of the
previous pass have been applied — every stored record whose space key
occurs in the snapshot has its id among the snapshot's ids — then a second
classification pass emits nothing (added = updated = 0), reports
`unchangedCount` equal to the number of remote items, and deletion
detection over the same snapshot returns the empty list. -/
theorem C1_idempotence_amended (db : Db.Store) (pages : List Page)
    (hsynced : ∀ p ∈ pages, ∃ r, Db.getPage db p.id = some r ∧
        r.version = p.version.number ∧ r.title = p.title)
    (hdeleted : ∀ r ∈ db, r.space_key ∈ pages.map (fun p => p.space.key) →
        r.page_id ∈ pages.map (fun p => p.id)) :
    Detector.detectChanges db pages
        = ([], ⟨pages.length, 0, 0, pages.length⟩) ∧
    Detector.detectDeletedPages db pages = [] := by
  constructor
  · have h : ∀ p ∈ pages, ∃ r, Db.getPage db p.id = some r ∧
        Detector.hasPageChanged p r = false := by
      intro p hp
      obtain ⟨r, hr, hv, ht⟩ := hsynced p hp
      exact ⟨r, hr, (Detector.hasPageChanged_false_iff p r).mpr
        ⟨Nat.le_of_eq hv.symm, ht.symm⟩⟩
    unfold Detector.detectChanges
    rw [Detector.detectChangesLoop_all_unchanged db pages h]
  · rw [List.eq_nil_iff_forall_not_mem]
    intro r hmem
    obtain ⟨hr, hks, hid⟩ := (Detector.mem_detectDeletedPages db pages r).mp hmem
    exact hid (hdeleted r hr hks)

/-- Witness for the amended C1: a fully synced one-page snapshot with a
store restricted to it yields no changes and no deletions. -/
theorem C1_idempotence_amended_witness :
    Detector.detectChanges [⟨"1", "DEV", "A", 1, "", none, none, none⟩]
        [⟨"1", "A", ⟨1⟩, ⟨"DEV"⟩, none⟩] = ([], ⟨1, 0, 0, 1⟩) ∧
    Detector.detectDeletedPages [⟨"1", "DEV", "A", 1, "", none, none, none⟩]
        [⟨"1", "A", ⟨1⟩, ⟨"DEV"⟩, none⟩] = [] := by
  have h := C1_idempotence_amended
    [⟨"1", "DEV", "A", 1, "", none, none, none⟩]
    [⟨"1", "A", ⟨1⟩, ⟨"DEV"⟩, none⟩]
    (by
      intro p hp
      rcases List.mem_singleton.mp hp with rfl
      exact ⟨⟨"1", "DEV", "A", 1, "", none, none, none⟩, by decide, by decide, by decide⟩)
    (by decide)
  simpa using h

theorem Client.getAllPagesLoop_length_le (limit maxPagesPerSync : Nat)
    (batches : List (List Page))
    (h : ∀ b ∈ batches, b.length ≤ limit) :
    ∀ acc, (Client.getAllPagesLoop limit maxPagesPerSync batches acc).length
      ≤ max acc.length (maxPagesPerSync - 1 + limit) := by
  induction batches with
  | nil =>
    intro acc
    exact Nat.le_max_left _ _
  | cons b rest ih =>
    intro acc
    have hb : b.length ≤ limit := h b (List.mem_cons_self b rest)
    have hrest : ∀ c ∈ rest, c.length ≤ limit :=
      fun c hc => h c (List.mem_cons_of_mem b hc)
    unfold Client.getAllPagesLoop
    by_cases hlt : acc.length < maxPagesPerSync
    · have hlen : (acc ++ b).length ≤ maxPagesPerSync - 1 + limit := by
        rw [List.length_append]
        omega
      by_cases hfull : b.length = limit
      · rw [if_pos hlt, if_pos hfull]
        calc (Client.getAllPagesLoop limit maxPagesPerSync rest (acc ++ b)).length
            ≤ max (acc ++ b).length (maxPagesPerSync - 1 + limit) := ih hrest (acc ++ b)
          _ ≤ maxPagesPerSync - 1 + limit := Nat.max_le.mpr ⟨hlen, Nat.le_refl _⟩
          _ ≤ max acc.length (maxPagesPerSync - 1 + limit) := Nat.le_max_right _ _
      · rw [if_pos hlt, if_neg hfull]
        exact Nat.le_trans hlen (Nat.le_max_right _ _)
    · rw [if_neg hlt]
      exact Nat.le_max_left _ _

/-- C5 counterexample — with a per-request `limit` of 2 and
`maxPagesPerSync = 3`, two full result batches yield 4 fetched pages: the
cap is only consulted between requests, so the returned list exceeds
`maxPagesPerSync`. -/
theorem C5_fetch_bound_counterexample :
    (Client.getAllPages 2 3
        [[⟨"a", "A", ⟨1⟩, ⟨"DEV"⟩, none⟩, ⟨"b", "B", ⟨1⟩, ⟨"DEV"⟩, none⟩],
         [⟨"c", "C", ⟨1⟩, ⟨"DEV"⟩, none⟩, ⟨"d", "D", ⟨1⟩, ⟨"DEV"⟩, none⟩]]).length
      = 4 := by
  decide

/-- C5 (amended) — Fetch bound with overshoot: if every response batch has
at most `limit` items (the server honors the request's page size), then
`getAllPages` returns at most `maxPagesPerSync - 1 + limit` items; the
accumulated count is checked only between requests, so the final batch can
exceed `maxPagesPerSync` by up to `limit - 1` items. -/
theorem C5_fetch_bound_amended (limit maxPagesPerSync : Nat)
    (batches : List (List Page))
    (h : ∀ b ∈ batches, b.length ≤ limit) :
    (Client.getAllPages limit maxPagesPerSync batches).length
      ≤ maxPagesPerSync - 1 + limit := by
  have := Client.getAllPagesLoop_length_le limit maxPagesPerSync batches h []
  simpa using this

/-- Witness for the amended C5: the counterexample configuration meets the
amended bound `3 - 1 + 2 = 4`. -/
theorem C5_fetch_bound_amended_witness :
    (∀ b ∈ ([[⟨"a", "A", ⟨1⟩, ⟨"DEV"⟩, none⟩, ⟨"b", "B", ⟨1⟩, ⟨"DEV"⟩, none⟩],
             [⟨"c", "C", ⟨1⟩, ⟨"DEV"⟩, none⟩, ⟨"d", "D", ⟨1⟩, ⟨"DEV"⟩, none⟩]] :
              List (List Page)),
        List.length b ≤ 2) ∧
    (Client.getAllPages 2 3
        [[⟨"a", "A", ⟨1⟩, ⟨"DEV"⟩, none⟩, ⟨"b", "B", ⟨1⟩, ⟨"DEV"⟩, none⟩],
         [⟨"c", "C", ⟨1⟩, ⟨"DEV"⟩, none⟩, ⟨"d", "D", ⟨1⟩, ⟨"DEV"⟩, none⟩]]).length
      ≤ 3 - 1 + 2 :=
  ⟨by decide, C5_fetch_bound_amended 2 3 _ (by decide)⟩

theorem Detector.fileExists_eq_false_iff (fsFiles : List String)
    (r : SyncedRecord) (hfs : "" ∉ fsFiles) :
    Detector.fileExists fsFiles r = false ↔
      (r.file_path = none ∨ ∃ p, r.file_path = some p ∧ p ∉ fsFiles) := by
  unfold Detector.fileExists
  cases hp : r.file_path with
  | none => simp
  | some p =>
    by_cases he : p = ""
    · subst he
      simp [hfs]
    · simp only [if_neg he, List.elem_eq_mem, decide_eq_false_iff_not,
        Option.some.injEq, reduceCtorEq, false_or]
      constructor
      · intro h
        exact ⟨p, rfl, h⟩
      · rintro ⟨q, hq, hnq⟩
        exact hq ▸ hnq

/-- C7 — Missing-artifact drift: a stored record appears in
`findMissingFiles` exactly when it is in the store and its `file_path` is
absent or names a path that does not exist; in particular a record whose
recorded artifact file has been externally deleted (its path is not among
the existing files) is listed.  The hypothesis `"" ∉ fsFiles` states that
the empty string is never an existing path (`fs.existsSync('')` is false). -/
theorem C7_missing_artifact_drift (fsFiles : List String) (db : Db.Store)
    (hfs : "" ∉ fsFiles) :
    (∀ r, r ∈ Detector.findMissingFiles fsFiles db ↔
      r ∈ db ∧ (r.file_path = none ∨ ∃ p, r.file_path = some p ∧ p ∉ fsFiles)) ∧
    (∀ r ∈ db, ∀ p, r.file_path = some p → p ∉ fsFiles →
      r ∈ Detector.findMissingFiles fsFiles db) := by
  have hmem : ∀ r, r ∈ Detector.findMissingFiles fsFiles db ↔
      r ∈ db ∧ (r.file_path = none ∨ ∃ p, r.file_path = some p ∧ p ∉ fsFiles) := by
    intro r
    unfold Detector.findMissingFiles Db.getAllPages
    rw [List.mem_filter]
    constructor
    · rintro ⟨hr, hb⟩
      have hfe : Detector.fileExists fsFiles r = false := by simpa using hb
      exact ⟨hr, (Detector.fileExists_eq_false_iff fsFiles r hfs).mp hfe⟩
    · rintro ⟨hr, hcond⟩
      have hfe : Detector.fileExists fsFiles r = false :=
        (Detector.fileExists_eq_false_iff fsFiles r hfs).mpr hcond
      exact ⟨hr, by simpa using hfe⟩
  refine ⟨hmem, ?_⟩
  intro r hr p hp hnp
  exact (hmem r).mpr ⟨hr, Or.inr ⟨p, hp, hnp⟩⟩

/-- Witness for C7: with only `/exists.md` on disk, the record pointing at
the externally deleted `/missing.md` is listed as missing. -/
theorem C7_missing_artifact_drift_witness :
    ("" ∉ ["/exists.md"]) ∧
    ⟨"2", "DEV", "B", 1, "", some "/missing.md", none, none⟩ ∈
      Detector.findMissingFiles ["/exists.md"]
        [⟨"1", "DEV", "A", 1, "", some "/exists.md", none, none⟩,
         ⟨"2", "DEV", "B", 1, "", some "/missing.md", none, none⟩] :=
  ⟨by decide,
   (C7_missing_artifact_drift ["/exists.md"]
      [⟨"1", "DEV", "A", 1, "", some "/exists.md", none, none⟩,
       ⟨"2", "DEV", "B", 1, "", some "/missing.md", none, none⟩]
      (by decide)).2
     ⟨"2", "DEV", "B", 1, "", some "/missing.md", none, none⟩ (by decide)
     "/missing.md" (by decide) (by decide)⟩

/-- C9 — Save atomicity of `PageStorage.savePageWithMetadata`: when the
artifact write fails, the result is `success=false` and the whole world —
in particular the record store — is unchanged (no upsert is attempted);
when the write succeeds but the record upsert throws, the result is
`success=false` yet still carries the path of the file that was written,
and the store is left unchanged. -/
theorem C9_save_atomicity (contentDir baseUrl now : String) (page : Page)
    (markdown : String) (storeName : Option String)
    (w : Storage.StorageWorld) :
    (∀ msg,
      lookupFail w.writeFail (Storage.getPageFilePath contentDir page) = some msg →
      Storage.savePageWithMetadata contentDir baseUrl now page markdown storeName w
        = ({ success := false, filePath := none, pageId := none,
             error := some msg }, w)) ∧
    (∀ msg,
      lookupFail w.writeFail (Storage.getPageFilePath contentDir page) = none →
      lookupFail w.upsertFail page.id = some msg →
      (Storage.savePageWithMetadata contentDir baseUrl now page markdown storeName w).1
          = { success := false,
              filePath := some (Storage.getPageFilePath contentDir page),
              pageId := none,
              error := some ("File saved but database update failed: " ++ msg) } ∧
        ((Storage.savePageWithMetadata contentDir baseUrl now page markdown
            storeName w).2).db = w.db) := by
  constructor
  · intro msg h
    unfold Storage.savePageWithMetadata Storage.savePage
    simp [h]
  · intro msg hw hu
    unfold Storage.savePageWithMetadata Storage.savePage
    simp [hw, hu]

/-- Witness for C9: a failing write leaves the world untouched; a failing
upsert still reports the written path while the store stays empty. -/
theorem C9_save_atomicity_witness :
    (lookupFail [("content/dev_1_t.md", "disk full")]
        (Storage.getPageFilePath "content" ⟨"1", "T", ⟨1⟩, ⟨"DEV"⟩, none⟩)
      = some "disk full") ∧
    (Storage.savePageWithMetadata "content" "https://x" "2024-01-01"
        ⟨"1", "T", ⟨1⟩, ⟨"DEV"⟩, none⟩ "body" none
        { files := [], db := [],
          writeFail := [("content/dev_1_t.md", "disk full")], upsertFail := [] }
      = ({ success := false, filePath := none, pageId := none,
           error := some "disk full" },
         { files := [], db := [],
           writeFail := [("content/dev_1_t.md", "disk full")], upsertFail := [] })) ∧
    ((Storage.savePageWithMetadata "content" "https://x" "2024-01-01"
        ⟨"1", "T", ⟨1⟩, ⟨"DEV"⟩, none⟩ "body" none
        { files := [], db := [], writeFail := [],
          upsertFail := [("1", "db locked")] }).1
      = { success := false, filePath := some "content/dev_1_t.md",
          pageId := none,
          error := some ("File saved but database update failed: " ++ "db locked") }) ∧
    ((Storage.savePageWithMetadata "content" "https://x" "2024-01-01"
        ⟨"1", "T", ⟨1⟩, ⟨"DEV"⟩, none⟩ "body" none
        { files := [], db := [], writeFail := [],
          upsertFail := [("1", "db locked")] }).2.db = []) := by
  have h1 := (C9_save_atomicity "content" "https://x" "2024-01-01"
      ⟨"1", "T", ⟨1⟩, ⟨"DEV"⟩, none⟩ "body" none
      { files := [], db := [],
        writeFail := [("content/dev_1_t.md", "disk full")], upsertFail := [] }).1
    "disk full" (by decide)
  have h2 := (C9_save_atomicity "content" "https://x" "2024-01-01"
      ⟨"1", "T", ⟨1⟩, ⟨"DEV"⟩, none⟩ "body" none
      { files := [], db := [], writeFail := [],
        upsertFail := [("1", "db locked")] }).2
    "db locked" (by decide) (by decide)
  refine ⟨by decide, h1, ?_, ?_⟩
  · have := h2.1
    simpa [show Storage.getPageFilePath "content" ⟨"1", "T", ⟨1⟩, ⟨"DEV"⟩, none⟩
        = "content/dev_1_t.md" from by decide] using this
  · exact h2.2

namespace Storage

theorem char_toNat_ofNat (n : Nat) (h : n < 55296) : (Char.ofNat n).toNat = n := by
  rw [Char.ofNat, dif_pos (Or.inl h)]
  simp [Char.ofNatAux, Char.toNat, UInt32.ofNat', UInt32.toNat]

theorem isUpper_iff (c : Char) : c.isUpper = true ↔ 65 ≤ c.toNat ∧ c.toNat ≤ 90 := by
  simp only [Char.isUpper, Bool.and_eq_true, decide_eq_true_eq]
  exact Iff.rfl

theorem isLower_iff (c : Char) : c.isLower = true ↔ 97 ≤ c.toNat ∧ c.toNat ≤ 122 := by
  simp only [Char.isLower, Bool.and_eq_true, decide_eq_true_eq]
  exact Iff.rfl

theorem toLower_of_upper (c : Char) (h : 65 ≤ c.toNat ∧ c.toNat ≤ 90) :
    Char.toLower c = Char.ofNat (c.toNat + 32) := by
  rw [Char.toLower, if_pos h]

theorem toLower_of_not_upper (c : Char) (h : ¬ (65 ≤ c.toNat ∧ c.toNat ≤ 90)) :
    Char.toLower c = c := by
  rw [Char.toLower, if_neg h]

theorem char_toNat_inj (c d : Char) (h : c.toNat = d.toNat) : c = d :=
  Char.ext (UInt32.ext h)

theorem toLower_isFileChar (c : Char) (h : isFileChar c = true) :
    isSafeChar (Char.toLower c) = true := by
  simp only [isFileChar, Char.isAlpha, Bool.or_eq_true, decide_eq_true_eq] at h
  by_cases hu : 65 ≤ c.toNat ∧ c.toNat ≤ 90
  · rw [toLower_of_upper c hu]
    have hval : (Char.ofNat (c.toNat + 32)).toNat = c.toNat + 32 :=
      char_toNat_ofNat _ (by omega)
    simp only [isSafeChar, Bool.or_eq_true]
    left
    left
    left
    rw [isLower_iff, hval]
    omega
  · rw [toLower_of_not_upper c hu]
    simp only [isSafeChar, Bool.or_eq_true, decide_eq_true_eq]
    rcases h with (((h1 | h1) | h1) | h1) | h1
    · exact absurd ((isUpper_iff c).mp h1) hu
    · exact Or.inl (Or.inl (Or.inl h1))
    · exact Or.inl (Or.inl (Or.inr h1))
    · exact Or.inl (Or.inr (by simp [h1]))
    · exact Or.inr (by simp [h1])

theorem toLower_eq_hyphen_iff (c : Char) : Char.toLower c = '-' ↔ c = '-' := by
  by_cases hu : 65 ≤ c.toNat ∧ c.toNat ≤ 90
  · rw [toLower_of_upper c hu]
    constructor
    · intro h
      have hval : (Char.ofNat (c.toNat + 32)).toNat = c.toNat + 32 :=
        char_toNat_ofNat _ (by omega)
      have h45 : (Char.ofNat (c.toNat + 32)).toNat = ('-').toNat := by rw [h]
      rw [hval] at h45
      have : c.toNat + 32 = 45 := h45
      omega
    · intro h
      have h45 : c.toNat = 45 := by rw [h]; rfl
      omega
  · rw [toLower_of_not_upper c hu]

end Storage

namespace Storage

theorem head?_of_front {α : Type} {l m : List α} (h : m <+: l) {c : α}
    (hc : m.head? = some c) : l.head? = some c := by
  obtain ⟨t, rfl⟩ := h
  cases m with
  | nil => simp at hc
  | cons a as => simpa using hc

theorem chain'_last_pair {R : Char → Char → Prop} (l : List Char) :
    ∀ x y, List.Chain' R l → l.getLast? = some y →
      l.dropLast.getLast? = some x → R x y := by
  induction l with
  | nil =>
    intro x y _ hy _
    simp at hy
  | cons a l ih =>
    intro x y hchain hy hx
    cases l with
    | nil => simp at hx
    | cons b m =>
      rw [List.getLast?_cons_cons] at hy
      cases m with
      | nil =>
        simp at hx hy
        subst hx
        subst hy
        exact (List.chain'_cons.mp hchain).1
      | cons d m2 =>
        have hchain2 : List.Chain' R (b :: d :: m2) := hchain.tail
        have hx2 : (b :: d :: m2).dropLast.getLast? = some x := by
          have hstep : (a :: b :: d :: m2).dropLast = a :: b :: (d :: m2).dropLast := rfl
          rw [hstep, List.getLast?_cons_cons] at hx
          exact hx
        exact ih x y hchain2 hy hx2

theorem collapseHyphens_cons_hyphen_true (cs : List Char) :
    collapseHyphens true ('-' :: cs) = collapseHyphens true cs := by
  conv_lhs => unfold collapseHyphens
  simp

theorem collapseHyphens_cons_hyphen_false (cs : List Char) :
    collapseHyphens false ('-' :: cs) = '-' :: collapseHyphens true cs := by
  conv_lhs => unfold collapseHyphens
  simp

theorem collapseHyphens_cons_other (flag : Bool) (c : Char) (cs : List Char)
    (hc : ¬ c = '-') :
    collapseHyphens flag (c :: cs) = c :: collapseHyphens false cs := by
  conv_lhs => unfold collapseHyphens
  simp [hc]

theorem collapseHyphens_true_head (cs : List Char) :
    (collapseHyphens true cs).head? ≠ some '-' := by
  induction cs with
  | nil => simp [collapseHyphens]
  | cons c rest ih =>
    by_cases hc : c = '-'
    · subst hc
      rw [collapseHyphens_cons_hyphen_true]
      exact ih
    · rw [collapseHyphens_cons_other true c rest hc]
      simp [hc]

theorem collapseHyphens_chain' (cs : List Char) :
    ∀ flag, NoAdjHyphens (collapseHyphens flag cs) := by
  induction cs with
  | nil =>
    intro flag
    simp [collapseHyphens, NoAdjHyphens]
  | cons c rest ih =>
    intro flag
    by_cases hc : c = '-'
    · subst hc
      cases flag with
      | true =>
        rw [collapseHyphens_cons_hyphen_true]
        exact ih true
      | false =>
        rw [collapseHyphens_cons_hyphen_false]
        rw [NoAdjHyphens, List.chain'_cons']
        refine ⟨?_, ih true⟩
        intro b hb hcontr
        apply collapseHyphens_true_head rest
        rw [Option.mem_def] at hb
        rw [hb, hcontr.2]
    · rw [collapseHyphens_cons_other flag c rest hc]
      rw [NoAdjHyphens, List.chain'_cons']
      refine ⟨?_, ih false⟩
      intro b _ hcontr
      exact hc hcontr.1

theorem mem_collapseHyphens (cs : List Char) :
    ∀ flag c, c ∈ collapseHyphens flag cs → c ∈ cs ∨ c = '-' := by
  induction cs with
  | nil =>
    intro flag c h
    simp [collapseHyphens] at h
  | cons a rest ih =>
    intro flag c h
    by_cases ha : a = '-'
    · subst ha
      cases flag with
      | true =>
        rw [collapseHyphens_cons_hyphen_true] at h
        rcases ih true c h with h1 | h1
        · exact Or.inl (List.mem_cons_of_mem _ h1)
        · exact Or.inr h1
      | false =>
        rw [collapseHyphens_cons_hyphen_false] at h
        rcases List.mem_cons.mp h with h1 | h1
        · exact Or.inr h1
        · rcases ih true c h1 with h2 | h2
          · exact Or.inl (List.mem_cons_of_mem _ h2)
          · exact Or.inr h2
    · rw [collapseHyphens_cons_other flag a rest ha] at h
      rcases List.mem_cons.mp h with h1 | h1
      · exact Or.inl (h1 ▸ List.mem_cons_self a rest)
      · rcases ih false c h1 with h2 | h2
        · exact Or.inl (List.mem_cons_of_mem a h2)
        · exact Or.inr h2

end Storage

namespace Storage

theorem trimTail_mem (l1 : List Char) (c : Char)
    (h : c ∈ if l1.getLast? = some '-' then l1.dropLast else l1) : c ∈ l1 := by
  split at h
  · exact (List.dropLast_prefix l1).subset h
  · exact h

theorem trimTail_chain (l1 : List Char) (h : NoAdjHyphens l1) :
    NoAdjHyphens (if l1.getLast? = some '-' then l1.dropLast else l1) := by
  split
  · exact h.prefix (List.dropLast_prefix l1)
  · exact h

theorem trimTail_head (l1 : List Char) (hh : l1.head? ≠ some '-') :
    (if l1.getLast? = some '-' then l1.dropLast else l1).head? ≠ some '-' := by
  split
  · intro hcontra
    exact hh (head?_of_front (List.dropLast_prefix l1) hcontra)
  · exact hh

theorem trimTail_last (l1 : List Char) (h : NoAdjHyphens l1) :
    (if l1.getLast? = some '-' then l1.dropLast else l1).getLast? ≠ some '-' := by
  by_cases hl : l1.getLast? = some '-'
  · rw [if_pos hl]
    intro hx
    exact chain'_last_pair l1 '-' '-' h hl hx ⟨rfl, rfl⟩
  · rw [if_neg hl]
    exact hl

theorem trimEdgeHyphens_cons_hyphen (rest : List Char) :
    trimEdgeHyphens ('-' :: rest)
      = if rest.getLast? = some '-' then rest.dropLast else rest := by
  simp [trimEdgeHyphens]

theorem trimEdgeHyphens_cons_other (a : Char) (rest : List Char) (ha : ¬ a = '-') :
    trimEdgeHyphens (a :: rest)
      = if (a :: rest).getLast? = some '-' then (a :: rest).dropLast
        else a :: rest := by
  simp [trimEdgeHyphens, ha]

theorem mem_trimEdgeHyphens (l : List Char) (c : Char)
    (h : c ∈ trimEdgeHyphens l) : c ∈ l := by
  cases l with
  | nil => simpa [trimEdgeHyphens] using h
  | cons a rest =>
    by_cases ha : a = '-'
    · subst ha
      rw [trimEdgeHyphens_cons_hyphen] at h
      exact List.mem_cons_of_mem _ (trimTail_mem rest c h)
    · rw [trimEdgeHyphens_cons_other a rest ha] at h
      exact trimTail_mem _ c h

theorem trimEdgeHyphens_chain' (l : List Char) (h : NoAdjHyphens l) :
    NoAdjHyphens (trimEdgeHyphens l) := by
  cases l with
  | nil => simp [trimEdgeHyphens, NoAdjHyphens]
  | cons a rest =>
    by_cases ha : a = '-'
    · subst ha
      rw [trimEdgeHyphens_cons_hyphen]
      exact trimTail_chain rest h.tail
    · rw [trimEdgeHyphens_cons_other a rest ha]
      exact trimTail_chain _ h

theorem trimEdgeHyphens_head (l : List Char) (h : NoAdjHyphens l) :
    (trimEdgeHyphens l).head? ≠ some '-' := by
  cases l with
  | nil => decide
  | cons a rest =>
    by_cases ha : a = '-'
    · subst ha
      rw [trimEdgeHyphens_cons_hyphen]
      apply trimTail_head
      intro hcontra
      rcases (List.chain'_cons'.mp h).1 '-' hcontra with hne
      exact hne ⟨rfl, rfl⟩
    · rw [trimEdgeHyphens_cons_other a rest ha]
      apply trimTail_head
      simp [ha]

theorem trimEdgeHyphens_last (l : List Char) (h : NoAdjHyphens l) :
    (trimEdgeHyphens l).getLast? ≠ some '-' := by
  cases l with
  | nil => decide
  | cons a rest =>
    by_cases ha : a = '-'
    · subst ha
      rw [trimEdgeHyphens_cons_hyphen]
      exact trimTail_last rest h.tail
    · rw [trimEdgeHyphens_cons_other a rest ha]
      exact trimTail_last _ h

theorem map_toLower_chain (t : List Char) (h : NoAdjHyphens t) :
    NoAdjHyphens (t.map Char.toLower) := by
  rw [NoAdjHyphens, List.chain'_map]
  refine h.imp ?_
  intro a b hab hcontr
  exact hab ⟨(toLower_eq_hyphen_iff a).mp hcontr.1,
    (toLower_eq_hyphen_iff b).mp hcontr.2⟩

theorem map_toLower_head (t : List Char) (h : t.head? ≠ some '-') :
    (t.map Char.toLower).head? ≠ some '-' := by
  rw [List.head?_map]
  intro hcontra
  cases ht : t.head? with
  | none => rw [ht] at hcontra; simp at hcontra
  | some c =>
    rw [ht] at hcontra
    have : Char.toLower c = '-' := by simpa using hcontra
    exact h (ht.trans (congrArg some ((toLower_eq_hyphen_iff c).mp this)))

theorem map_toLower_last (t : List Char) (h : t.getLast? ≠ some '-') :
    (t.map Char.toLower).getLast? ≠ some '-' := by
  rw [List.getLast?_map]
  intro hcontra
  cases ht : t.getLast? with
  | none => rw [ht] at hcontra; simp at hcontra
  | some c =>
    rw [ht] at hcontra
    have : Char.toLower c = '-' := by simpa using hcontra
    exact h (ht.trans (congrArg some ((toLower_eq_hyphen_iff c).mp this)))

end Storage

theorem Storage.sanitizeFilenameChars_props (l : List Char) :
    (Storage.sanitizeFilenameChars l).length ≤ 100 ∧
    (∀ c ∈ Storage.sanitizeFilenameChars l, Storage.isSafeChar c = true) ∧
    Storage.NoAdjHyphens (Storage.sanitizeFilenameChars l) ∧
    (Storage.sanitizeFilenameChars l).head? ≠ some '-' ∧
    ((Storage.sanitizeFilenameChars l).length < 100 →
      (Storage.sanitizeFilenameChars l).getLast? ≠ some '-') := by
  have hdef : Storage.sanitizeFilenameChars l =
      ((Storage.trimEdgeHyphens
          (Storage.collapseHyphens false
            (List.filter Storage.isFileChar
              (Storage.collapseSpaces false l)))).map Char.toLower).take 100 := rfl
  have hchain2 := Storage.collapseHyphens_chain'
    (List.filter Storage.isFileChar (Storage.collapseSpaces false l)) false
  have hchain3 := Storage.trimEdgeHyphens_chain' _ hchain2
  have hchain4 := Storage.map_toLower_chain _ hchain3
  have hhead3 := Storage.trimEdgeHyphens_head _ hchain2
  have hhead4 := Storage.map_toLower_head _ hhead3
  have hlast3 := Storage.trimEdgeHyphens_last _ hchain2
  have hlast4 := Storage.map_toLower_last _ hlast3
  refine ⟨?_, ?_, ?_, ?_, ?_⟩
  · rw [hdef, List.length_take]
    exact Nat.min_le_left _ _
  · intro c hc
    rw [hdef] at hc
    have hc1 := List.mem_of_mem_take hc
    obtain ⟨d, hd, rfl⟩ := List.mem_map.mp hc1
    have hd2 := Storage.mem_trimEdgeHyphens _ _ hd
    rcases Storage.mem_collapseHyphens _ false d hd2 with h3 | h3
    · exact Storage.toLower_isFileChar d (List.mem_filter.mp h3).2
    · subst h3
      exact Storage.toLower_isFileChar '-' (by decide)
  · rw [hdef]
    exact hchain4.prefix (List.take_prefix 100 _)
  · rw [hdef]
    intro hcontra
    exact hhead4 (Storage.head?_of_front (List.take_prefix 100 _) hcontra)
  · rw [hdef, List.length_take]
    intro hlen
    rcases Nat.lt_or_ge
      ((Storage.trimEdgeHyphens
          (Storage.collapseHyphens false
            (List.filter Storage.isFileChar
              (Storage.collapseSpaces false l)))).map Char.toLower).length 100
      with hsmall | hbig
    · rw [List.take_of_length_le (Nat.le_of_lt hsmall)]
      exact hlast4
    · omega

/-- C10 counterexample — the claim asserts `sanitizeFilename` never returns
a string with a trailing hyphen, but the edge-trim happens before the
100-character truncation: a title of 99 `a`s, a space and a `b` sanitizes
to 99 `a`s followed by a hyphen, which ends in a hyphen. -/
theorem C10_filename_safety_counterexample :
    (Storage.sanitizeFilename
        (String.mk (List.replicate 99 'a' ++ [' ', 'b']))).data.getLast?
      = some '-' := by
  decide

/-- C10 (amended) — Filename safety: `sanitizeFilename` returns at most 100
characters, all lowercase letters, digits, hyphens or underscores, with no
two consecutive hyphens and no leading hyphen; a trailing hyphen can occur
only through the 100-character truncation (whenever the result is shorter
than 100 characters the truncation was a no-op and there is no trailing
hyphen).  `generateFilename` depends only on the page's space key, id and
title. -/
theorem C10_filename_safety_amended (title : String) :
    (Storage.sanitizeFilename title).length ≤ 100 ∧
    (∀ c ∈ (Storage.sanitizeFilename title).data, Storage.isSafeChar c = true) ∧
    Storage.NoAdjHyphens (Storage.sanitizeFilename title).data ∧
    (Storage.sanitizeFilename title).data.head? ≠ some '-' ∧
    ((Storage.sanitizeFilename title).length < 100 →
      (Storage.sanitizeFilename title).data.getLast? ≠ some '-') ∧
    (∀ p q : Page, p.space.key = q.space.key → p.id = q.id →
      p.title = q.title →
      Storage.generateFilename p = Storage.generateFilename q) := by
  have hdata : (Storage.sanitizeFilename title).data
      = Storage.sanitizeFilenameChars title.data := rfl
  have hlen : (Storage.sanitizeFilename title).length
      = (Storage.sanitizeFilenameChars title.data).length := rfl
  obtain ⟨h1, h2, h3, h4, h5⟩ := Storage.sanitizeFilenameChars_props title.data
  refine ⟨?_, ?_, ?_, ?_, ?_, ?_⟩
  · rw [hlen]
    exact h1
  · rw [hdata]
    exact h2
  · rw [hdata]
    exact h3
  · rw [hdata]
    exact h4
  · rw [hlen, hdata]
    exact h5
  · intro p q hk hid ht
    unfold Storage.generateFilename
    rw [hk, hid, ht]

/-- Witness for the amended C10: the title `"My Page!"` sanitizes to
`"my-page"`, which is shorter than 100 characters and has no trailing
hyphen. -/
theorem C10_filename_safety_amended_witness :
    (Storage.sanitizeFilename "My Page!").length < 100 ∧
    (Storage.sanitizeFilename "My Page!").data.getLast? ≠ some '-' :=
  ⟨by decide, (C10_filename_safety_amended "My Page!").2.2.2.2.1 (by decide)⟩

namespace Detector

theorem cleanupPageStep_fail_record (res : CleanupResults) (w : CleanupWorld)
    (page : SyncedRecord) (msg : String)
    (h : lookupFail w.dbDeleteFail page.page_id = some msg) :
    cleanupPageStep (res, w) page
      = ({ res with errors := res.errors ++ [.pageError page.page_id msg] }, w) := by
  unfold cleanupPageStep dbDeletePage
  simp [h]

theorem cleanupPageStep_ok_unlink_fail (res : CleanupResults)
    (w : CleanupWorld) (page : SyncedRecord) (fp msg : String)
    (hdb : lookupFail w.dbDeleteFail page.page_id = none)
    (hfp : page.file_path = some fp) (hne : fp ≠ "") (hmem : fp ∈ w.files)
    (hun : lookupFail w.unlinkFail fp = some msg) :
    cleanupPageStep (res, w) page
      = ({ res with
            deletedPages := res.deletedPages + 1
            errors := res.errors ++ [.pageError page.page_id msg] },
         { w with db := Db.deletePage w.db page.page_id }) := by
  unfold cleanupPageStep dbDeletePage unlinkSync
  simp [hdb, hfp, hne, hmem, hun]

theorem cleanupPageStep_ok_unlink_ok (res : CleanupResults)
    (w : CleanupWorld) (page : SyncedRecord) (fp : String)
    (hdb : lookupFail w.dbDeleteFail page.page_id = none)
    (hfp : page.file_path = some fp) (hne : fp ≠ "") (hmem : fp ∈ w.files)
    (hun : lookupFail w.unlinkFail fp = none) :
    cleanupPageStep (res, w) page
      = ({ res with
            deletedPages := res.deletedPages + 1
            deletedFiles := res.deletedFiles + 1 },
         { w with
            db := Db.deletePage w.db page.page_id
            files := w.files.filter (fun q => ¬ q = fp) }) := by
  unfold cleanupPageStep dbDeletePage unlinkSync
  simp [hdb, hfp, hne, hmem, hun]

end Detector

theorem Detector.cleanupPageLoop_success (l : List SyncedRecord) :
    ∀ (res : Detector.CleanupResults) (w : Detector.CleanupWorld),
      (∀ q ∈ l, lookupFail w.dbDeleteFail q.page_id = none ∧
        ∃ fp, q.file_path = some fp ∧ fp ≠ "" ∧ fp ∈ w.files ∧
          lookupFail w.unlinkFail fp = none) →
      List.Pairwise (fun a b => a.file_path ≠ b.file_path) l →
      ((l.foldl Detector.cleanupPageStep (res, w)).1.errors = res.errors ∧
       (l.foldl Detector.cleanupPageStep (res, w)).1.deletedPages
          = res.deletedPages + l.length ∧
       (l.foldl Detector.cleanupPageStep (res, w)).1.deletedFiles
          = res.deletedFiles + l.length ∧
       (l.foldl Detector.cleanupPageStep (res, w)).1.orphanedFiles
          = res.orphanedFiles ∧
       (l.foldl Detector.cleanupPageStep (res, w)).2.dbDeleteFail
          = w.dbDeleteFail ∧
       (l.foldl Detector.cleanupPageStep (res, w)).2.unlinkFail = w.unlinkFail ∧
       (l.foldl Detector.cleanupPageStep (res, w)).2.contentTree
          = w.contentTree ∧
       (∀ x, x ∈ w.files → (∀ q ∈ l, q.file_path ≠ some x) →
         x ∈ (l.foldl Detector.cleanupPageStep (res, w)).2.files)) := by
  induction l with
  | nil =>
    intro res w _ _
    exact ⟨rfl, rfl, rfl, rfl, rfl, rfl, rfl, fun x hx _ => hx⟩
  | cons q0 l ih =>
    intro res w hq hpw
    obtain ⟨hdb0, fp0, hfp0, hne0, hmem0, hun0⟩ := hq q0 (List.mem_cons_self _ _)
    rw [List.foldl_cons,
      Detector.cleanupPageStep_ok_unlink_ok res w q0 fp0 hdb0 hfp0 hne0 hmem0 hun0]
    have hq1 : ∀ q ∈ l,
        lookupFail w.dbDeleteFail q.page_id = none ∧
        ∃ fp, q.file_path = some fp ∧ fp ≠ "" ∧
          fp ∈ w.files.filter (fun s => ¬ s = fp0) ∧
          lookupFail w.unlinkFail fp = none := by
      intro q hql
      obtain ⟨hdbq, fpq, hfpq, hneq, hmemq, hunq⟩ := hq q (List.mem_cons_of_mem _ hql)
      refine ⟨hdbq, fpq, hfpq, hneq, ?_, hunq⟩
      have hnefp : ¬ fpq = fp0 := by
        have hpair := (List.pairwise_cons.mp hpw).1 q hql
        intro hcontr
        apply hpair
        rw [hfp0, hfpq, hcontr]
      simp [List.mem_filter, hmemq, hnefp]
    have hpw1 := (List.pairwise_cons.mp hpw).2
    obtain ⟨e1, d1, f1, o1, db1, un1, ct1, pres1⟩ :=
      ih { res with
            deletedPages := res.deletedPages + 1
            deletedFiles := res.deletedFiles + 1 }
        { w with
            db := Db.deletePage w.db q0.page_id
            files := w.files.filter (fun q => ¬ q = fp0) }
        hq1 hpw1
    refine ⟨e1, ?_, ?_, o1, db1, un1, ct1, ?_⟩
    · rw [d1]
      simp only [List.length_cons]
      omega
    · rw [f1]
      simp only [List.length_cons]
      omega
    · intro x hx hnq
      apply pres1 x
      · have hnex : ¬ x = fp0 := by
          intro hcontr
          apply hnq q0 (List.mem_cons_self _ _)
          rw [hfp0, hcontr]
        simp [List.mem_filter, hx, hnex]
      · intro q hql
        exact hnq q (List.mem_cons_of_mem _ hql)

theorem Detector.cleanupOrphanLoop_props (paths : List String) :
    ∀ (acc : Detector.CleanupResults × Detector.CleanupWorld),
      ((paths.foldl Detector.cleanupOrphanStep acc).1.errors.filter
          Detector.isPageError = acc.1.errors.filter Detector.isPageError) ∧
      (paths.foldl Detector.cleanupOrphanStep acc).1.deletedPages
          = acc.1.deletedPages ∧
      (paths.foldl Detector.cleanupOrphanStep acc).1.deletedFiles
          = acc.1.deletedFiles ∧
      (paths.foldl Detector.cleanupOrphanStep acc).2.unlinkFail
          = acc.2.unlinkFail ∧
      (∀ x m, lookupFail acc.2.unlinkFail x = some m → x ∈ acc.2.files →
        x ∈ (paths.foldl Detector.cleanupOrphanStep acc).2.files) := by
  induction paths with
  | nil =>
    intro acc
    exact ⟨rfl, rfl, rfl, rfl, fun x m _ hx => hx⟩
  | cons p0 ps ih =>
    intro acc
    obtain ⟨res, w⟩ := acc
    rw [List.foldl_cons]
    cases hun : lookupFail w.unlinkFail p0 with
    | some m0 =>
      have hstep : Detector.cleanupOrphanStep (res, w) p0
          = ({ res with errors := res.errors ++ [.fileError p0 m0] }, w) := by
        unfold Detector.cleanupOrphanStep Detector.unlinkSync
        simp [hun]
      rw [hstep]
      obtain ⟨e, d, f, u, pres⟩ :=
        ih ({ res with errors := res.errors ++ [.fileError p0 m0] }, w)
      refine ⟨?_, d, f, u, pres⟩
      rw [e]
      simp [List.filter_append, Detector.isPageError]
    | none =>
      have hstep : Detector.cleanupOrphanStep (res, w) p0
          = ({ res with orphanedFiles := res.orphanedFiles + 1 },
             { w with files := w.files.filter (fun q => ¬ q = p0) }) := by
        unfold Detector.cleanupOrphanStep Detector.unlinkSync
        simp [hun]
      rw [hstep]
      obtain ⟨e, d, f, u, pres⟩ :=
        ih ({ res with orphanedFiles := res.orphanedFiles + 1 },
          { w with files := w.files.filter (fun q => ¬ q = p0) })
      refine ⟨e, d, f, u, ?_⟩
      intro x m hx hmem
      apply pres x m
      · exact hx
      · have hnex : ¬ x = p0 := by
          intro hcontr
          rw [hcontr, hun] at hx
          exact Option.noConfusion hx
        simp [List.mem_filter, hmem, hnex]

theorem Detector.cleanup_eq (l : List SyncedRecord) (contentDir : String)
    (w : Detector.CleanupWorld) :
    Detector.cleanup l contentDir w
      = (Detector.findOrphanedFiles
            (l.foldl Detector.cleanupPageStep (⟨0, 0, 0, []⟩, w)).2.db contentDir
            (l.foldl Detector.cleanupPageStep (⟨0, 0, 0, []⟩, w)).2.contentTree).foldl
          Detector.cleanupOrphanStep
          (l.foldl Detector.cleanupPageStep (⟨0, 0, 0, []⟩, w)) := rfl

theorem Detector.cleanupPageStep_fail_record_acc
    (acc : Detector.CleanupResults × Detector.CleanupWorld)
    (page : SyncedRecord) (msg : String)
    (h : lookupFail acc.2.dbDeleteFail page.page_id = some msg) :
    Detector.cleanupPageStep acc page
      = (Detector.CleanupResults.mk acc.1.deletedPages acc.1.deletedFiles
          acc.1.orphanedFiles
          (acc.1.errors ++ [.pageError page.page_id msg]),
         acc.2) := by
  obtain ⟨res, w⟩ := acc
  rw [Detector.cleanupPageStep_fail_record res w page msg h]

theorem Detector.cleanupPageStep_ok_unlink_fail_acc
    (acc : Detector.CleanupResults × Detector.CleanupWorld)
    (page : SyncedRecord) (fp msg : String)
    (hdb : lookupFail acc.2.dbDeleteFail page.page_id = none)
    (hfp : page.file_path = some fp) (hne : fp ≠ "") (hmem : fp ∈ acc.2.files)
    (hun : lookupFail acc.2.unlinkFail fp = some msg) :
    Detector.cleanupPageStep acc page
      = (Detector.CleanupResults.mk (acc.1.deletedPages + 1)
          acc.1.deletedFiles acc.1.orphanedFiles
          (acc.1.errors ++ [.pageError page.page_id msg]),
         Detector.CleanupWorld.mk (Db.deletePage acc.2.db page.page_id)
          acc.2.files acc.2.contentTree acc.2.dbDeleteFail acc.2.unlinkFail) := by
  obtain ⟨res, w⟩ := acc
  rw [Detector.cleanupPageStep_ok_unlink_fail res w page fp msg hdb hfp hne hmem hun]

/-- C8 — Per-deletion fault isolation of `ChangeDetector.cleanup`: in a
cleanup list `pre ++ [p] ++ post` where deleting `p`'s record or artifact
throws and every other page deletes cleanly (each with its own existing,
pairwise-distinct artifact file), the run records exactly one page-keyed
error entry carrying `p`'s id and the thrown message, still processes every
other page — all their records and files are deleted and counted — and the
counts reflect only the deletions that succeeded: a record-delete failure
contributes to neither count, while an artifact-delete failure still counts
`p`'s record deletion but not the file, whose path remains on disk. -/
theorem C8_cleanup_fault_isolation (p : SyncedRecord)
    (pre post : List SyncedRecord) (contentDir msg : String)
    (w : Detector.CleanupWorld)
    (hclean : ∀ q ∈ pre ++ post,
      lookupFail w.dbDeleteFail q.page_id = none ∧
      ∃ fp, q.file_path = some fp ∧ fp ≠ "" ∧ fp ∈ w.files ∧
        lookupFail w.unlinkFail fp = none)
    (hdistinct : List.Pairwise (fun a b => a.file_path ≠ b.file_path)
      (pre ++ p :: post)) :
    (lookupFail w.dbDeleteFail p.page_id = some msg →
      ((Detector.cleanup (pre ++ p :: post) contentDir w).1.errors.filter
          Detector.isPageError = [.pageError p.page_id msg] ∧
        (Detector.cleanup (pre ++ p :: post) contentDir w).1.deletedPages
            = pre.length + post.length ∧
        (Detector.cleanup (pre ++ p :: post) contentDir w).1.deletedFiles
            = pre.length + post.length)) ∧
    (∀ fp, lookupFail w.dbDeleteFail p.page_id = none →
      p.file_path = some fp → fp ≠ "" → fp ∈ w.files →
      lookupFail w.unlinkFail fp = some msg →
      ((Detector.cleanup (pre ++ p :: post) contentDir w).1.errors.filter
          Detector.isPageError = [.pageError p.page_id msg] ∧
        (Detector.cleanup (pre ++ p :: post) contentDir w).1.deletedPages
            = pre.length + 1 + post.length ∧
        (Detector.cleanup (pre ++ p :: post) contentDir w).1.deletedFiles
            = pre.length + post.length ∧
        fp ∈ (Detector.cleanup (pre ++ p :: post) contentDir w).2.files)) := by
  obtain ⟨hdpre, hdrest, hcross⟩ := List.pairwise_append.mp hdistinct
  have hdpost : List.Pairwise (fun a b => a.file_path ≠ b.file_path) post :=
    (List.pairwise_cons.mp hdrest).2
  have hpvspost : ∀ b ∈ post, p.file_path ≠ b.file_path :=
    (List.pairwise_cons.mp hdrest).1
  have hq_pre : ∀ q ∈ pre,
      lookupFail w.dbDeleteFail q.page_id = none ∧
      ∃ fp, q.file_path = some fp ∧ fp ≠ "" ∧ fp ∈ w.files ∧
        lookupFail w.unlinkFail fp = none :=
    fun q hq => hclean q (List.mem_append_left post hq)
  obtain ⟨e1, d1, f1, o1, db1, un1, ct1, pres1⟩ :=
    Detector.cleanupPageLoop_success pre ⟨0, 0, 0, []⟩ w hq_pre hdpre
  have hq_post : ∀ q ∈ post,
      lookupFail (pre.foldl Detector.cleanupPageStep
          (⟨0, 0, 0, []⟩, w)).2.dbDeleteFail q.page_id = none ∧
      ∃ fpq, q.file_path = some fpq ∧ fpq ≠ "" ∧
        fpq ∈ (pre.foldl Detector.cleanupPageStep
          (⟨0, 0, 0, []⟩, w)).2.files ∧
        lookupFail (pre.foldl Detector.cleanupPageStep
          (⟨0, 0, 0, []⟩, w)).2.unlinkFail fpq = none := by
    intro q hq
    obtain ⟨hdbq, fpq, hfpq, hneq, hmemq, hunq⟩ :=
      hclean q (List.mem_append_right pre hq)
    refine ⟨by rw [db1]; exact hdbq, fpq, hfpq, hneq, ?_,
      by rw [un1]; exact hunq⟩
    apply pres1 fpq hmemq
    intro q1 hq1 hcontr
    apply hcross q1 hq1 q (List.mem_cons_of_mem p hq)
    rw [hfpq, hcontr]
  constructor
  · intro hfail
    have hfailR : lookupFail (pre.foldl Detector.cleanupPageStep
        (⟨0, 0, 0, []⟩, w)).2.dbDeleteFail p.page_id = some msg := by
      rw [db1]
      exact hfail
    have hstep := Detector.cleanupPageStep_fail_record_acc
      (pre.foldl Detector.cleanupPageStep (⟨0, 0, 0, []⟩, w)) p msg hfailR
    obtain ⟨e2, d2, f2, o2, db2, un2, ct2, pres2⟩ :=
      Detector.cleanupPageLoop_success post
        (Detector.CleanupResults.mk
          (pre.foldl Detector.cleanupPageStep (⟨0, 0, 0, []⟩, w)).1.deletedPages
          (pre.foldl Detector.cleanupPageStep (⟨0, 0, 0, []⟩, w)).1.deletedFiles
          (pre.foldl Detector.cleanupPageStep (⟨0, 0, 0, []⟩, w)).1.orphanedFiles
          ((pre.foldl Detector.cleanupPageStep (⟨0, 0, 0, []⟩, w)).1.errors
            ++ [.pageError p.page_id msg]))
        (pre.foldl Detector.cleanupPageStep (⟨0, 0, 0, []⟩, w)).2
        hq_post hdpost
    obtain ⟨oe, od, ofl, ou, opres⟩ :=
      Detector.cleanupOrphanLoop_props
        (Detector.findOrphanedFiles
          (post.foldl Detector.cleanupPageStep
            (Detector.CleanupResults.mk
              (pre.foldl Detector.cleanupPageStep (⟨0, 0, 0, []⟩, w)).1.deletedPages
              (pre.foldl Detector.cleanupPageStep (⟨0, 0, 0, []⟩, w)).1.deletedFiles
              (pre.foldl Detector.cleanupPageStep (⟨0, 0, 0, []⟩, w)).1.orphanedFiles
              ((pre.foldl Detector.cleanupPageStep (⟨0, 0, 0, []⟩, w)).1.errors
                ++ [.pageError p.page_id msg]),
             (pre.foldl Detector.cleanupPageStep (⟨0, 0, 0, []⟩, w)).2)).2.db
          contentDir
          (post.foldl Detector.cleanupPageStep
            (Detector.CleanupResults.mk
              (pre.foldl Detector.cleanupPageStep (⟨0, 0, 0, []⟩, w)).1.deletedPages
              (pre.foldl Detector.cleanupPageStep (⟨0, 0, 0, []⟩, w)).1.deletedFiles
              (pre.foldl Detector.cleanupPageStep (⟨0, 0, 0, []⟩, w)).1.orphanedFiles
              ((pre.foldl Detector.cleanupPageStep (⟨0, 0, 0, []⟩, w)).1.errors
                ++ [.pageError p.page_id msg]),
             (pre.foldl Detector.cleanupPageStep (⟨0, 0, 0, []⟩, w)).2)).2.contentTree)
        (post.foldl Detector.cleanupPageStep
          (Detector.CleanupResults.mk
            (pre.foldl Detector.cleanupPageStep (⟨0, 0, 0, []⟩, w)).1.deletedPages
            (pre.foldl Detector.cleanupPageStep (⟨0, 0, 0, []⟩, w)).1.deletedFiles
            (pre.foldl Detector.cleanupPageStep (⟨0, 0, 0, []⟩, w)).1.orphanedFiles
            ((pre.foldl Detector.cleanupPageStep (⟨0, 0, 0, []⟩, w)).1.errors
              ++ [.pageError p.page_id msg]),
           (pre.foldl Detector.cleanupPageStep (⟨0, 0, 0, []⟩, w)).2))
    rw [Detector.cleanup_eq, List.foldl_append, List.foldl_cons, hstep]
    refine ⟨?_, ?_, ?_⟩
    · rw [oe, e2]
      simp [e1, Detector.isPageError]
    · rw [od, d2]
      simp [d1]
    · rw [ofl, f2]
      simp [f1]
  · intro fp hok hfp hne hmem hun
    have hokR : lookupFail (pre.foldl Detector.cleanupPageStep
        (⟨0, 0, 0, []⟩, w)).2.dbDeleteFail p.page_id = none := by
      rw [db1]
      exact hok
    have hmemR : fp ∈ (pre.foldl Detector.cleanupPageStep
        (⟨0, 0, 0, []⟩, w)).2.files := by
      apply pres1 fp hmem
      intro q1 hq1 hcontr
      apply hcross q1 hq1 p (List.mem_cons_self p post)
      rw [hfp, hcontr]
    have hunR : lookupFail (pre.foldl Detector.cleanupPageStep
        (⟨0, 0, 0, []⟩, w)).2.unlinkFail fp = some msg := by
      rw [un1]
      exact hun
    have hstep := Detector.cleanupPageStep_ok_unlink_fail_acc
      (pre.foldl Detector.cleanupPageStep (⟨0, 0, 0, []⟩, w)) p fp msg
      hokR hfp hne hmemR hunR
    obtain ⟨e2, d2, f2, o2, db2, un2, ct2, pres2⟩ :=
      Detector.cleanupPageLoop_success post
        (Detector.CleanupResults.mk
          ((pre.foldl Detector.cleanupPageStep (⟨0, 0, 0, []⟩, w)).1.deletedPages + 1)
          (pre.foldl Detector.cleanupPageStep (⟨0, 0, 0, []⟩, w)).1.deletedFiles
          (pre.foldl Detector.cleanupPageStep (⟨0, 0, 0, []⟩, w)).1.orphanedFiles
          ((pre.foldl Detector.cleanupPageStep (⟨0, 0, 0, []⟩, w)).1.errors
            ++ [.pageError p.page_id msg]))
        (Detector.CleanupWorld.mk
          (Db.deletePage (pre.foldl Detector.cleanupPageStep
            (⟨0, 0, 0, []⟩, w)).2.db p.page_id)
          (pre.foldl Detector.cleanupPageStep (⟨0, 0, 0, []⟩, w)).2.files
          (pre.foldl Detector.cleanupPageStep (⟨0, 0, 0, []⟩, w)).2.contentTree
          (pre.foldl Detector.cleanupPageStep (⟨0, 0, 0, []⟩, w)).2.dbDeleteFail
          (pre.foldl Detector.cleanupPageStep (⟨0, 0, 0, []⟩, w)).2.unlinkFail)
        hq_post hdpost
    obtain ⟨oe, od, ofl, ou, opres⟩ :=
      Detector.cleanupOrphanLoop_props
        (Detector.findOrphanedFiles
          (post.foldl Detector.cleanupPageStep
            (Detector.CleanupResults.mk
              ((pre.foldl Detector.cleanupPageStep (⟨0, 0, 0, []⟩, w)).1.deletedPages + 1)
              (pre.foldl Detector.cleanupPageStep (⟨0, 0, 0, []⟩, w)).1.deletedFiles
              (pre.foldl Detector.cleanupPageStep (⟨0, 0, 0, []⟩, w)).1.orphanedFiles
              ((pre.foldl Detector.cleanupPageStep (⟨0, 0, 0, []⟩, w)).1.errors
                ++ [.pageError p.page_id msg]),
             Detector.CleanupWorld.mk
              (Db.deletePage (pre.foldl Detector.cleanupPageStep
                (⟨0, 0, 0, []⟩, w)).2.db p.page_id)
              (pre.foldl Detector.cleanupPageStep (⟨0, 0, 0, []⟩, w)).2.files
              (pre.foldl Detector.cleanupPageStep (⟨0, 0, 0, []⟩, w)).2.contentTree
              (pre.foldl Detector.cleanupPageStep (⟨0, 0, 0, []⟩, w)).2.dbDeleteFail
              (pre.foldl Detector.cleanupPageStep (⟨0, 0, 0, []⟩, w)).2.unlinkFail)).2.db
          contentDir
          (post.foldl Detector.cleanupPageStep
            (Detector.CleanupResults.mk
              ((pre.foldl Detector.cleanupPageStep (⟨0, 0, 0, []⟩, w)).1.deletedPages + 1)
              (pre.foldl Detector.cleanupPageStep (⟨0, 0, 0, []⟩, w)).1.deletedFiles
              (pre.foldl Detector.cleanupPageStep (⟨0, 0, 0, []⟩, w)).1.orphanedFiles
              ((pre.foldl Detector.cleanupPageStep (⟨0, 0, 0, []⟩, w)).1.errors
                ++ [.pageError p.page_id msg]),
             Detector.CleanupWorld.mk
              (Db.deletePage (pre.foldl Detector.cleanupPageStep
                (⟨0, 0, 0, []⟩, w)).2.db p.page_id)
              (pre.foldl Detector.cleanupPageStep (⟨0, 0, 0, []⟩, w)).2.files
              (pre.foldl Detector.cleanupPageStep (⟨0, 0, 0, []⟩, w)).2.contentTree
              (pre.foldl Detector.cleanupPageStep (⟨0, 0, 0, []⟩, w)).2.dbDeleteFail
              (pre.foldl Detector.cleanupPageStep
                (⟨0, 0, 0, []⟩, w)).2.unlinkFail)).2.contentTree)
        (post.foldl Detector.cleanupPageStep
          (Detector.CleanupResults.mk
            ((pre.foldl Detector.cleanupPageStep (⟨0, 0, 0, []⟩, w)).1.deletedPages + 1)
            (pre.foldl Detector.cleanupPageStep (⟨0, 0, 0, []⟩, w)).1.deletedFiles
            (pre.foldl Detector.cleanupPageStep (⟨0, 0, 0, []⟩, w)).1.orphanedFiles
            ((pre.foldl Detector.cleanupPageStep (⟨0, 0, 0, []⟩, w)).1.errors
              ++ [.pageError p.page_id msg]),
           Detector.CleanupWorld.mk
            (Db.deletePage (pre.foldl Detector.cleanupPageStep
              (⟨0, 0, 0, []⟩, w)).2.db p.page_id)
            (pre.foldl Detector.cleanupPageStep (⟨0, 0, 0, []⟩, w)).2.files
            (pre.foldl Detector.cleanupPageStep (⟨0, 0, 0, []⟩, w)).2.contentTree
            (pre.foldl Detector.cleanupPageStep (⟨0, 0, 0, []⟩, w)).2.dbDeleteFail
            (pre.foldl Detector.cleanupPageStep (⟨0, 0, 0, []⟩, w)).2.unlinkFail))
    rw [Detector.cleanup_eq, List.foldl_append, List.foldl_cons, hstep]
    refine ⟨?_, ?_, ?_, ?_⟩
    · rw [oe, e2]
      simp [e1, Detector.isPageError]
    · rw [od, d2]
      simp [d1]
    · rw [ofl, f2]
      simp [f1]
    · apply opres fp msg
      · rw [un2, un1]
        exact hun
      · apply pres2 fp hmemR
        intro q hq hcontr
        apply hpvspost q hq
        rw [hfp, hcontr]

/-- Witness for C8: both failure modes of `cleanup` at concrete inputs —
page "1" fails mid-list (record delete throwing "boom", or artifact unlink
throwing "locked") between pages "0" and "2", which clean up fully. -/
theorem C8_cleanup_fault_isolation_witness :
    (lookupFail [("1", "boom")] "1" = some "boom" ∧
      (Detector.cleanup
          [⟨"0", "DEV", "Z", 1, "", some "/z.md", none, none⟩,
           ⟨"1", "DEV", "A", 1, "", some "/a.md", none, none⟩,
           ⟨"2", "DEV", "B", 1, "", some "/b.md", none, none⟩] "content"
          { db := [], files := ["/z.md", "/a.md", "/b.md"], contentTree := none,
            dbDeleteFail := [("1", "boom")], unlinkFail := [] }).1.errors.filter
          Detector.isPageError = [.pageError "1" "boom"] ∧
      (Detector.cleanup
          [⟨"0", "DEV", "Z", 1, "", some "/z.md", none, none⟩,
           ⟨"1", "DEV", "A", 1, "", some "/a.md", none, none⟩,
           ⟨"2", "DEV", "B", 1, "", some "/b.md", none, none⟩] "content"
          { db := [], files := ["/z.md", "/a.md", "/b.md"], contentTree := none,
            dbDeleteFail := [("1", "boom")], unlinkFail := [] }).1.deletedPages
          = 1 + 1 ∧
      (Detector.cleanup
          [⟨"0", "DEV", "Z", 1, "", some "/z.md", none, none⟩,
           ⟨"1", "DEV", "A", 1, "", some "/a.md", none, none⟩,
           ⟨"2", "DEV", "B", 1, "", some "/b.md", none, none⟩] "content"
          { db := [], files := ["/z.md", "/a.md", "/b.md"], contentTree := none,
            dbDeleteFail := [("1", "boom")], unlinkFail := [] }).1.deletedFiles
          = 1 + 1) ∧
    (lookupFail [("/a.md", "locked")] "/a.md" = some "locked" ∧
      (Detector.cleanup
          [⟨"0", "DEV", "Z", 1, "", some "/z.md", none, none⟩,
           ⟨"1", "DEV", "A", 1, "", some "/a.md", none, none⟩,
           ⟨"2", "DEV", "B", 1, "", some "/b.md", none, none⟩] "content"
          { db := [], files := ["/z.md", "/a.md", "/b.md"], contentTree := none,
            dbDeleteFail := [], unlinkFail := [("/a.md", "locked")] }).1.errors.filter
          Detector.isPageError = [.pageError "1" "locked"] ∧
      (Detector.cleanup
          [⟨"0", "DEV", "Z", 1, "", some "/z.md", none, none⟩,
           ⟨"1", "DEV", "A", 1, "", some "/a.md", none, none⟩,
           ⟨"2", "DEV", "B", 1, "", some "/b.md", none, none⟩] "content"
          { db := [], files := ["/z.md", "/a.md", "/b.md"], contentTree := none,
            dbDeleteFail := [], unlinkFail := [("/a.md", "locked")] }).1.deletedPages
          = 1 + 1 + 1 ∧
      "/a.md" ∈ (Detector.cleanup
          [⟨"0", "DEV", "Z", 1, "", some "/z.md", none, none⟩,
           ⟨"1", "DEV", "A", 1, "", some "/a.md", none, none⟩,
           ⟨"2", "DEV", "B", 1, "", some "/b.md", none, none⟩] "content"
          { db := [], files := ["/z.md", "/a.md", "/b.md"], contentTree := none,
            dbDeleteFail := [], unlinkFail := [("/a.md", "locked")] }).2.files) := by
  have hclean1 : ∀ q ∈ [(⟨"0", "DEV", "Z", 1, "", some "/z.md", none, none⟩ : SyncedRecord)]
        ++ [(⟨"2", "DEV", "B", 1, "", some "/b.md", none, none⟩ : SyncedRecord)],
      lookupFail [("1", "boom")] q.page_id = none ∧
      ∃ fp, q.file_path = some fp ∧ fp ≠ "" ∧ fp ∈ ["/z.md", "/a.md", "/b.md"] ∧
        lookupFail ([] : List (String × String)) fp = none := by
    intro q hq
    simp only [List.cons_append, List.nil_append, List.mem_cons,
      List.mem_singleton, List.not_mem_nil, or_false] at hq
    rcases hq with rfl | rfl
    · exact ⟨by decide, "/z.md", rfl, by decide, by decide, rfl⟩
    · exact ⟨by decide, "/b.md", rfl, by decide, by decide, rfl⟩
  have hclean2 : ∀ q ∈ [(⟨"0", "DEV", "Z", 1, "", some "/z.md", none, none⟩ : SyncedRecord)]
        ++ [(⟨"2", "DEV", "B", 1, "", some "/b.md", none, none⟩ : SyncedRecord)],
      lookupFail ([] : List (String × String)) q.page_id = none ∧
      ∃ fp, q.file_path = some fp ∧ fp ≠ "" ∧ fp ∈ ["/z.md", "/a.md", "/b.md"] ∧
        lookupFail [("/a.md", "locked")] fp = none := by
    intro q hq
    simp only [List.cons_append, List.nil_append, List.mem_cons,
      List.mem_singleton, List.not_mem_nil, or_false] at hq
    rcases hq with rfl | rfl
    · exact ⟨rfl, "/z.md", rfl, by decide, by decide, by decide⟩
    · exact ⟨rfl, "/b.md", rfl, by decide, by decide, by decide⟩
  have hdist : List.Pairwise (fun (a b : SyncedRecord) => a.file_path ≠ b.file_path)
      ([(⟨"0", "DEV", "Z", 1, "", some "/z.md", none, none⟩ : SyncedRecord)]
        ++ (⟨"1", "DEV", "A", 1, "", some "/a.md", none, none⟩ : SyncedRecord)
          :: [(⟨"2", "DEV", "B", 1, "", some "/b.md", none, none⟩ : SyncedRecord)]) := by
    decide
  have h1 := (C8_cleanup_fault_isolation
      ⟨"1", "DEV", "A", 1, "", some "/a.md", none, none⟩
      [⟨"0", "DEV", "Z", 1, "", some "/z.md", none, none⟩]
      [⟨"2", "DEV", "B", 1, "", some "/b.md", none, none⟩] "content" "boom"
      { db := [], files := ["/z.md", "/a.md", "/b.md"], contentTree := none,
        dbDeleteFail := [("1", "boom")], unlinkFail := [] }
      hclean1 hdist).1 (by decide)
  have h2 := (C8_cleanup_fault_isolation
      ⟨"1", "DEV", "A", 1, "", some "/a.md", none, none⟩
      [⟨"0", "DEV", "Z", 1, "", some "/z.md", none, none⟩]
      [⟨"2", "DEV", "B", 1, "", some "/b.md", none, none⟩] "content" "locked"
      { db := [], files := ["/z.md", "/a.md", "/b.md"], contentTree := none,
        dbDeleteFail := [], unlinkFail := [("/a.md", "locked")] }
      hclean2 hdist).2 "/a.md" rfl rfl (by decide) (by decide) (by decide)
  exact ⟨⟨by decide, h1.1, h1.2.1, h1.2.2⟩, ⟨by decide, h2.1, h2.2.1, h2.2.2.2⟩⟩
